import Mathlib

/-!
# Verification of the order-management-system domain core

Shallow embedding of the domain model of the order-management system:
value objects (`Money`, `Quantity`), the `InventoryItem` stock ledger,
the `Order` aggregate, the `InventoryReservationService`, and the
application handlers `AddProductHandler` and `SetInventoryHandler`.

Conventions of the embedding:
* Python `Decimal` amounts are modelled as exact rationals (`Rat`).
  Construction from a string is exact; Decimal *arithmetic* runs under
  the default context (28 significant digits, `ROUND_HALF_EVEN`), which
  the source never changes.  `Money.add`/`Money.sub`/`Money.mul` below
  are the exact-arithmetic simplification, used where claims are
  insensitive to rounding; the context rounding itself is modelled by
  `decRound` with `Money.addDec`/`Money.subDec`, which decide the
  round-trip claim.
* Exceptions are modelled with `Except DomainError`; stateful operations
  that persist through a repository take the repository contents (a list
  of records, as the JSON file repositories store them) and return the
  updated contents.  An operation that can leave earlier saves behind on
  failure returns the state reached at the point of failure together
  with the error (`State × Option DomainError`).
* Error messages are abbreviated where the source interpolates values;
  no theorem below depends on message text, only on the error kind.
* `datetime` fields (`Order.created_at`) are omitted: no claim and no
  domain rule reads them.
-/

namespace OMS

/-- The two domain error kinds of `oms.domain.exceptions`:
`ValidationError` and `EntityNotFoundError`. -/
inductive DomainError where
  | validationError (msg : String)
  | entityNotFoundError (msg : String)
deriving DecidableEq, Repr

/-- Decidable equality of raised-or-returned outcomes, for evaluating
concrete runs. -/
instance {E A : Type} [DecidableEq E] [DecidableEq A] : DecidableEq (Except E A) := fun a b =>
  match a, b with
  | .error e1, .error e2 =>
    if h : e1 = e2 then .isTrue (by rw [h])
    else .isFalse (fun hh => h (by injection hh))
  | .error _, .ok _ => .isFalse (fun hh => Except.noConfusion hh)
  | .ok _, .error _ => .isFalse (fun hh => Except.noConfusion hh)
  | .ok a1, .ok a2 =>
    if h : a1 = a2 then .isTrue (by rw [h])
    else .isFalse (fun hh => h (by injection hh))

/-- Model of Python `str.strip()`: removes leading and trailing
whitespace.  (Defined over `List Char` so that concrete instances
evaluate inside the kernel.) -/
def pyStrip (s : String) : String :=
  ⟨((s.data.dropWhile Char.isWhitespace).reverse.dropWhile Char.isWhitespace).reverse⟩

/-- Model of Python `str.lower()` (ASCII case folding, which the
catalog names exercise). -/
def pyLower (s : String) : String :=
  ⟨s.data.map Char.toLower⟩

/-- `Money` value object (`value_objects.py`).  The Python class is a
frozen dataclass whose `__post_init__` rejects a negative amount, so a
`Money` with a negative amount can never exist; the invariant is
carried as a proof field. -/
structure Money where
  amount : Rat
  currency : String
  nonneg : 0 ≤ amount

theorem money_ext {a b : Money} (h1 : a.amount = b.amount)
    (h2 : a.currency = b.currency) : a = b := by
  cases a; cases b; cases h1; cases h2; rfl

instance : DecidableEq Money := fun a b =>
  decidable_of_iff (a.amount = b.amount ∧ a.currency = b.currency)
    ⟨fun h => money_ext h.1 h.2, fun h => by cases h; exact ⟨rfl, rfl⟩⟩

/-- `Money.__add__`: requires matching currency, then constructs the sum
(the constructor's non-negativity check always passes).  Exact
arithmetic; the default context's rounding of the sum is modelled
separately by `Money.addDec`. -/
def Money.add (a b : Money) : Except DomainError Money :=
  if a.currency = b.currency then
    .ok ⟨a.amount + b.amount, a.currency, add_nonneg a.nonneg b.nonneg⟩
  else
    .error (.validationError ("Cannot combine " ++ a.currency ++ " with " ++ b.currency))

/-- `Money.__sub__`: requires matching currency and a non-negative
result.  Exact arithmetic; the default context's rounding of the
difference is modelled separately by `Money.subDec`. -/
def Money.sub (a b : Money) : Except DomainError Money :=
  if a.currency = b.currency then
    if h : a.amount - b.amount < 0 then
      .error (.validationError "Money subtraction would result in a negative amount")
    else
      .ok ⟨a.amount - b.amount, a.currency, not_lt.mp h⟩
  else
    .error (.validationError ("Cannot combine " ++ a.currency ++ " with " ++ b.currency))

/-- `Money.__mul__` by an integer factor; the constructor of the result
raises when the product is negative (possible only for a negative
factor).  Exact arithmetic: the default context would round a product
beyond 28 significant digits, which no claim here depends on. -/
def Money.mul (a : Money) (factor : Int) : Except DomainError Money :=
  if h : a.amount * (factor : Rat) < 0 then
    .error (.validationError "Money amount cannot be negative")
  else
    .ok ⟨a.amount * (factor : Rat), a.currency, not_lt.mp h⟩

/-- `Money.__lt__`: comparison with currency-match enforcement. -/
def Money.ltE (a b : Money) : Except DomainError Bool :=
  if a.currency = b.currency then
    .ok (decide (a.amount < b.amount))
  else
    .error (.validationError ("Cannot combine " ++ a.currency ++ " with " ++ b.currency))

/-- Value of a list of decimal digit characters (most significant
first); callers guard that every character is a digit. -/
def digitsVal (cs : List Char) : Nat :=
  cs.foldl (fun acc c => acc * 10 + (c.toNat - 48)) 0

/-- Parser for the plain decimal strings accepted by `Decimal(str(x))`
in `Money.of`: optional sign, digits, at most one decimal point, at
least one digit overall.  (Exponent notation and the special values
`NaN`/`Infinity` accepted by Python's `Decimal` are outside the spec's
"exact decimal string" contract and are not modelled.) -/
def parseDecimal? (s : String) : Option Rat := do
  let cs := s.data
  let (neg, cs) := match cs with
    | '-' :: rest => (true, rest)
    | '+' :: rest => (false, rest)
    | rest => (false, rest)
  let intPart := cs.takeWhile (fun c => c ≠ '.')
  let q ← match cs.dropWhile (fun c => c ≠ '.') with
    | [] =>
      if intPart.isEmpty ∨ ¬ intPart.all Char.isDigit then none
      else some ((digitsVal intPart : Rat))
    | _ :: frac =>
      if (intPart.isEmpty ∧ frac.isEmpty) ∨ ¬ intPart.all Char.isDigit
          ∨ ¬ frac.all Char.isDigit then none
      else some ((digitsVal intPart : Rat) + (digitsVal frac : Rat) / (10 : Rat) ^ frac.length)
  pure (if neg then -q else q)

/-- `Money.of`: coerces a string to a `Money`; a parse failure and a
negative amount both surface as `ValidationError`. -/
def Money.of (s : String) : Except DomainError Money :=
  match parseDecimal? s with
  | none => .error (.validationError ("Invalid money amount: " ++ s))
  | some q =>
    if h : q < 0 then .error (.validationError "Money amount cannot be negative")
    else .ok ⟨q, "USD", not_lt.mp h⟩

/-- `Quantity` value object: a frozen dataclass whose `__post_init__`
rejects non-positive values, so the positivity invariant is a proof
field. -/
structure Quantity where
  value : Int
  pos : 0 < value

theorem quantity_ext {a b : Quantity} (h : a.value = b.value) : a = b := by
  cases a; cases b; cases h; rfl

instance : DecidableEq Quantity := fun a b =>
  decidable_of_iff (a.value = b.value) ⟨quantity_ext, fun h => by cases h; rfl⟩

/-- `InventoryItem` (`inventory.py`): a plain dataclass — the
constructor performs no validation, the invariants are maintained only
by `reserve`/`release`/`fulfill`. -/
structure InventoryItem where
  product_id : String
  product_name : String
  total_quantity : Int
  reserved_quantity : Int
deriving DecidableEq, Repr

/-- `InventoryItem.available_quantity`. -/
def InventoryItem.available_quantity (item : InventoryItem) : Int :=
  item.total_quantity - item.reserved_quantity

/-- `InventoryItem.reserve`. -/
def InventoryItem.reserve (item : InventoryItem) (quantity : Int) :
    Except DomainError InventoryItem :=
  if quantity ≤ 0 then
    .error (.validationError "Reservation quantity must be positive")
  else if quantity > item.available_quantity then
    .error (.validationError ("Insufficient inventory for " ++ item.product_name))
  else
    .ok { item with reserved_quantity := item.reserved_quantity + quantity }

/-- `InventoryItem.release`. -/
def InventoryItem.release (item : InventoryItem) (quantity : Int) :
    Except DomainError InventoryItem :=
  if quantity ≤ 0 then
    .error (.validationError "Release quantity must be positive")
  else if quantity > item.reserved_quantity then
    .error (.validationError ("Cannot release this of " ++ item.product_name))
  else
    .ok { item with reserved_quantity := item.reserved_quantity - quantity }

/-- `InventoryItem.fulfill`: permanent deduction, both counters
decrease. -/
def InventoryItem.fulfill (item : InventoryItem) (quantity : Int) :
    Except DomainError InventoryItem :=
  if quantity ≤ 0 then
    .error (.validationError "Fulfill quantity must be positive")
  else if quantity > item.reserved_quantity then
    .error (.validationError ("Cannot fulfill this of " ++ item.product_name))
  else
    .ok { item with
            reserved_quantity := item.reserved_quantity - quantity,
            total_quantity := item.total_quantity - quantity }

/-- One call in a sequence of stock-ledger operations. -/
inductive StockOp where
  | reserve (q : Int)
  | release (q : Int)
  | fulfill (q : Int)
deriving DecidableEq, Repr

/-- Apply one stock-ledger call. -/
def applyStockOp (item : InventoryItem) : StockOp → Except DomainError InventoryItem
  | .reserve q => item.reserve q
  | .release q => item.release q
  | .fulfill q => item.fulfill q

/-- Run a sequence of stock-ledger calls; the first failure aborts, so
reaching `.ok` means every call individually succeeded. -/
def runStockOps (item : InventoryItem) : List StockOp → Except DomainError InventoryItem
  | [] => .ok item
  | op :: rest =>
    match applyStockOp item op with
    | .error e => .error e
    | .ok item' => runStockOps item' rest

/-- `OrderStatus` enum (`order.py`). -/
inductive OrderStatus where
  | draft
  | confirmed
  | partially_fulfilled
  | fulfilled
  | cancelled
deriving DecidableEq, Repr

/-- `OrderLineItem`: price snapshot of a product at order-creation
time; only `shipped_quantity` is mutable (via `ship`). -/
structure OrderLineItem where
  product_id : String
  product_name : String
  quantity : Quantity
  unit_price : Money
  shipped_quantity : Int
deriving DecidableEq

/-- `OrderLineItem.line_total = unit_price * quantity.value`. -/
def OrderLineItem.line_total (item : OrderLineItem) : Except DomainError Money :=
  item.unit_price.mul item.quantity.value

/-- `OrderLineItem.remaining_quantity`. -/
def OrderLineItem.remaining_quantity (item : OrderLineItem) : Int :=
  item.quantity.value - item.shipped_quantity

/-- `OrderLineItem.is_fully_shipped`. -/
def OrderLineItem.is_fully_shipped (item : OrderLineItem) : Bool :=
  decide (item.remaining_quantity = 0)

/-- `OrderLineItem.ship`. -/
def OrderLineItem.ship (item : OrderLineItem) (qty : Int) :
    Except DomainError OrderLineItem :=
  if qty ≤ 0 then
    .error (.validationError "Ship quantity must be positive")
  else if qty > item.remaining_quantity then
    .error (.validationError ("Cannot ship this many of " ++ item.product_name))
  else
    .ok { item with shipped_quantity := item.shipped_quantity + qty }

/-- `MIN_ORDER_TOTAL = Money(Decimal("10.00"))`. -/
def MIN_ORDER_TOTAL : Money := ⟨10, "USD", by norm_num⟩

/-- `MAX_LINE_ITEMS = 50`. -/
def MAX_LINE_ITEMS : Nat := 50

/-- `Order` aggregate root.  `created_at` is omitted (see the header
comment). -/
structure Order where
  id : Option Int
  customer_name : String
  items : List OrderLineItem
  status : OrderStatus
deriving DecidableEq

/-- The accumulation loop of `Order.total`:
`result = result + item.line_total` for each item, any raise
propagating out. -/
def totalLoop : Money → List OrderLineItem → Except DomainError Money
  | result, [] => .ok result
  | result, item :: rest =>
    match item.line_total with
    | .error e => .error e
    | .ok t =>
      match result.add t with
      | .error e => .error e
      | .ok result' => totalLoop result' rest

/-- `Order.total`: starts from `Money(Decimal("0.00"))` and adds every
line total in order; a currency mismatch raises out of the loop. -/
def Order.total (o : Order) : Except DomainError Money :=
  totalLoop ⟨0, "USD", le_refl 0⟩ o.items

/-- `Order.create`: the factory enforcing all creation rules. -/
def Order.create (customer_name : String) (items : List OrderLineItem) :
    Except DomainError Order :=
  if pyStrip customer_name = "" then
    .error (.validationError "Customer name is required")
  else if items.isEmpty then
    .error (.validationError "Order must contain at least one item")
  else if items.length > MAX_LINE_ITEMS then
    .error (.validationError "Maximum 50 items per order")
  else
    let order : Order := ⟨none, pyStrip customer_name, items, .draft⟩
    match order.total with
    | .error e => .error e
    | .ok t =>
      match t.ltE MIN_ORDER_TOTAL with
      | .error e => .error e
      | .ok below =>
        if below then
          .error (.validationError "Order total below minimum")
        else
          .ok order

/-- `Order.confirm`: DRAFT → CONFIRMED. -/
def Order.confirm (o : Order) : Except DomainError Order :=
  if o.status ≠ OrderStatus.draft then
    .error (.validationError "Cannot confirm order")
  else
    .ok { o with status := .confirmed }

/-- First line item with the given product id, as `Order._find_item`
locates it (`None` here standing for the raised `ValidationError`). -/
def findItem? (items : List OrderLineItem) (product_id : String) :
    Option OrderLineItem :=
  items.find? (fun item => item.product_id == product_id)

/-- `Order._find_item` followed by `item.ship(qty)`: ships the first
line item matching `product_id`, in place in the list. -/
def shipFirst : List OrderLineItem → String → Int →
    Except DomainError (List OrderLineItem)
  | [], _, _ => .error (.validationError "Product ID not found in this order")
  | item :: rest, product_id, qty =>
    if item.product_id == product_id then
      match item.ship qty with
      | .error e => .error e
      | .ok item' => .ok (item' :: rest)
    else
      match shipFirst rest product_id qty with
      | .error e => .error e
      | .ok rest' => .ok (item :: rest')

/-- The shipment loop of `Order.fulfill_items`, over the entries of the
`quantities` dict in iteration (insertion) order. -/
def shipAll : List OrderLineItem → List (String × Int) →
    Except DomainError (List OrderLineItem)
  | items, [] => .ok items
  | items, (product_id, qty) :: rest =>
    match shipFirst items product_id qty with
    | .error e => .error e
    | .ok items' => shipAll items' rest

/-- `Order.fulfill_items`.  The `quantities` dict is embedded as an
association list in insertion order; key uniqueness (guaranteed by the
Python `dict` type) is a hypothesis where a theorem needs it. -/
def Order.fulfill_items (o : Order) (quantities : List (String × Int)) :
    Except DomainError Order :=
  if o.status = OrderStatus.fulfilled then
    .error (.validationError "Order already fulfilled")
  else if o.status ≠ OrderStatus.confirmed ∧ o.status ≠ OrderStatus.partially_fulfilled then
    .error (.validationError "Cannot fulfill order in this status")
  else if quantities.isEmpty then
    .error (.validationError "Must specify at least one item to fulfill")
  else
    match shipAll o.items quantities with
    | .error e => .error e
    | .ok items' =>
      if items'.all OrderLineItem.is_fully_shipped then
        .ok { o with items := items', status := .fulfilled }
      else
        .ok { o with items := items', status := .partially_fulfilled }

/-- Insertion into a Python `dict` held as an association list: a
present key keeps its position and takes the new value, a new key is
appended. -/
def dictInsert (d : List (String × Int)) (k : String) (v : Int) :
    List (String × Int) :=
  match d with
  | [] => [(k, v)]
  | (k', v') :: rest =>
    if k' == k then (k', v) :: rest else (k', v') :: dictInsert rest k v

/-- The dict comprehension of `Order.fulfill`:
`{item.product_id: item.remaining_quantity for item in items if item.remaining_quantity > 0}`. -/
def remainingMap (items : List OrderLineItem) : List (String × Int) :=
  items.foldl
    (fun d item =>
      if item.remaining_quantity > 0 then
        dictInsert d item.product_id item.remaining_quantity
      else d)
    []

/-- `Order.fulfill`: delegates to `fulfill_items` with all remaining
quantities. -/
def Order.fulfill (o : Order) : Except DomainError Order :=
  o.fulfill_items (remainingMap o.items)

/-- `Order.cancel`. -/
def Order.cancel (o : Order) : Except DomainError Order :=
  if o.status = OrderStatus.cancelled then
    .error (.validationError "Order is already cancelled")
  else if o.status = OrderStatus.fulfilled then
    .error (.validationError "Cannot cancel order in FULFILLED status")
  else
    .ok { o with status := .cancelled }

/-- `JsonInventoryRepository.get_by_product_id`: first stored record
with the given product id. -/
def getByProductId (σ : List InventoryItem) (product_id : String) :
    Option InventoryItem :=
  σ.find? (fun raw => raw.product_id == product_id)

/-- `JsonInventoryRepository.save`: replace the first record with the
same product id, else append (upsert). -/
def saveInventoryItem : List InventoryItem → InventoryItem → List InventoryItem
  | [], item => [item]
  | raw :: rest, item =>
    if raw.product_id == item.product_id then item :: rest
    else raw :: saveInventoryItem rest item

/-- Phase 1 of `InventoryReservationService.reserve_for_order`: load
and validate every line against the (unchanged) repository state,
collecting `(inventory_items, qty)` pairs; no mutation. -/
def reservePhase1 (σ : List InventoryItem) :
    List OrderLineItem → Except DomainError (List (InventoryItem × Int))
  | [] => .ok []
  | line :: rest =>
    match getByProductId σ line.product_id with
    | none =>
      .error (.entityNotFoundError ("No inventory record for product " ++ line.product_name))
    | some inv =>
      if line.quantity.value > inv.available_quantity then
        .error (.validationError ("Insufficient inventory for " ++ line.product_name))
      else
        match reservePhase1 σ rest with
        | .error e => .error e
        | .ok pairs => .ok ((inv, line.quantity.value) :: pairs)

/-- Phase 2 of `reserve_for_order`: `reserve()` each collected item and
save it.  A failure aborts but keeps the saves already made, so the
state reached at the point of failure is returned with the error. -/
def reservePhase2 : List (InventoryItem × Int) → List InventoryItem →
    List InventoryItem × Option DomainError
  | [], σ => (σ, none)
  | (inv, qty) :: rest, σ =>
    match inv.reserve qty with
    | .error e => (σ, some e)
    | .ok inv' => reservePhase2 rest (saveInventoryItem σ inv')

/-- `InventoryReservationService.reserve_for_order` over the repository
contents, with the JSON repository's value semantics (`get` returns a
fresh record, `save` writes it back). -/
def reserve_for_order (order : Order) (σ : List InventoryItem) :
    List InventoryItem × Option DomainError :=
  match reservePhase1 σ order.items with
  | .error e => (σ, some e)
  | .ok pairs => reservePhase2 pairs σ

/-- `Product` catalog entry. -/
structure Product where
  id : String
  name : String
  price : Money
deriving DecidableEq

/-- `JsonProductRepository.get_by_name`: first product whose name
matches case-insensitively. -/
def getByName (ps : List Product) (name : String) : Option Product :=
  ps.find? (fun p => pyLower p.name == pyLower name)

/-- `JsonProductRepository.save`: upsert by id, keeping the stored
position of an existing id and appending a new one. -/
def saveProduct : List Product → Product → List Product
  | [], p => [p]
  | q :: rest, p => if q.id == p.id then p :: rest else q :: saveProduct rest p

/-- The id auto-assignment of `AddProductHandler.handle`:
`max(int(p.id)) + 1`, or `"1"` for an empty catalog.  Ids are the
numeric strings this same handler assigns, so they all parse and are
non-negative (a catalog with a non-numeric id would crash `int()` in
Python — outside the domain errors and not modelled). -/
def nextProductId (ps : List Product) : String :=
  if ps.isEmpty then "1"
  else toString ((ps.map (fun p => p.id.toInt?.getD 0)).foldl max 0 + 1)

/-- `AddProductHandler.handle`: returns the created product and the
updated catalog. -/
def addProduct (ps : List Product) (name : String) (price : String) :
    Except DomainError (Product × List Product) :=
  if pyStrip name = "" then
    .error (.validationError "Product name is required")
  else
    match getByName ps name with
    | some _ => .error (.validationError ("Product already exists: " ++ name))
    | none =>
      match Money.of price with
      | .error e => .error e
      | .ok m =>
        let product : Product := ⟨nextProductId ps, pyStrip name, m⟩
        .ok (product, saveProduct ps product)

/-- `SetInventoryHandler.handle`: upsert of the total quantity for the
product found by (case-insensitive) name; no validation of `quantity`. -/
def setInventory (ps : List Product) (σ : List InventoryItem)
    (product_name : String) (quantity : Int) :
    Except DomainError (List InventoryItem) :=
  match getByName ps product_name with
  | none => .error (.entityNotFoundError ("Product not found: " ++ product_name))
  | some product =>
    match getByProductId σ product.id with
    | some existing =>
      .ok (saveInventoryItem σ { existing with total_quantity := quantity })
    | none =>
      .ok (saveInventoryItem σ ⟨product.id, product.name, quantity, 0⟩)

/-!
## Stock-ledger invariant (claims C4, C7)
-/

/-- The spec's field invariant on an `InventoryItem`:
`reserved_quantity ≥ 0` and `reserved_quantity ≤ total_quantity`.
The Python constructor does not enforce it. -/
def InventoryItem.Wf (item : InventoryItem) : Prop :=
  0 ≤ item.reserved_quantity ∧ item.reserved_quantity ≤ item.total_quantity

theorem applyStockOp_wf {item item' : InventoryItem} {op : StockOp}
    (hwf : item.Wf) (h : applyStockOp item op = .ok item') : item'.Wf := by
  obtain ⟨pid, name, tq, rq⟩ := item
  obtain ⟨h0, h1⟩ := hwf
  have h0' : (0 : Int) ≤ rq := h0
  have h1' : rq ≤ tq := h1
  cases op with
  | reserve q =>
    simp only [applyStockOp, InventoryItem.reserve, InventoryItem.available_quantity] at h
    split at h
    · exact Except.noConfusion h
    · split at h
      · exact Except.noConfusion h
      · injection h with h
        subst h
        show 0 ≤ rq + q ∧ rq + q ≤ tq
        omega
  | release q =>
    simp only [applyStockOp, InventoryItem.release] at h
    split at h
    · exact Except.noConfusion h
    · split at h
      · exact Except.noConfusion h
      · injection h with h
        subst h
        show 0 ≤ rq - q ∧ rq - q ≤ tq
        omega
  | fulfill q =>
    simp only [applyStockOp, InventoryItem.fulfill] at h
    split at h
    · exact Except.noConfusion h
    · split at h
      · exact Except.noConfusion h
      · injection h with h
        subst h
        show 0 ≤ rq - q ∧ rq - q ≤ tq - q
        omega

theorem runStockOps_wf {item final : InventoryItem} {ops : List StockOp}
    (hwf : item.Wf) (h : runStockOps item ops = .ok final) : final.Wf := by
  induction ops generalizing item with
  | nil =>
    simp only [runStockOps] at h
    injection h with h
    subst h
    exact hwf
  | cons op rest ih =>
    simp only [runStockOps] at h
    cases hap : applyStockOp item op with
    | error e => rw [hap] at h; exact Except.noConfusion h
    | ok item' => rw [hap] at h; exact ih (applyStockOp_wf hwf hap) h

/-- C4 counterexample: the `InventoryItem` dataclass constructor
performs no validation, so an item already violating
`reserved_quantity ≤ total_quantity` exists (and is even reachable
through `SetInventoryHandler`); a single individually-successful
`fulfill` then yields a final state still violating the invariant, so
the claim is false when quantified over every `InventoryItem`. -/
theorem inventory_invariant_counterexample :
    runStockOps ⟨"1", "Widget", 0, 5⟩ [StockOp.fulfill 5] = .ok ⟨"1", "Widget", -5, 0⟩ ∧
    ¬ (InventoryItem.mk "1" "Widget" (-5) 0).reserved_quantity ≤
        (InventoryItem.mk "1" "Widget" (-5) 0).total_quantity := by
  exact ⟨rfl, by decide⟩

/-- C4 (amended): for every `InventoryItem` satisfying the spec's field
invariant (`0 ≤ reserved_quantity ≤ total_quantity`) and every finite
sequence of `reserve`/`release`/`fulfill` calls that individually
succeed, the invariant `reserved_quantity ≤ total_quantity` (hence
`available_quantity ≥ 0`) holds after the sequence. -/
theorem inventory_invariant_preserved (item final : InventoryItem) (ops : List StockOp)
    (h0 : 0 ≤ item.reserved_quantity)
    (h1 : item.reserved_quantity ≤ item.total_quantity)
    (h : runStockOps item ops = .ok final) :
    final.reserved_quantity ≤ final.total_quantity ∧
      0 ≤ final.available_quantity := by
  have hwf : 0 ≤ final.reserved_quantity ∧
      final.reserved_quantity ≤ final.total_quantity :=
    runStockOps_wf ⟨h0, h1⟩ h
  obtain ⟨hwf0, hwf1⟩ := hwf
  exact ⟨hwf1, by simp only [InventoryItem.available_quantity]; omega⟩

/-- Witness for C4 (amended): a concrete run
reserve 3; fulfill 2; release 1 from stock (10, 0). -/
theorem inventory_invariant_preserved_witness :
    (InventoryItem.mk "1" "Widget" 8 0).reserved_quantity ≤
        (InventoryItem.mk "1" "Widget" 8 0).total_quantity ∧
      0 ≤ (InventoryItem.mk "1" "Widget" 8 0).available_quantity :=
  inventory_invariant_preserved ⟨"1", "Widget", 10, 0⟩ ⟨"1", "Widget", 8, 0⟩
    [StockOp.reserve 3, StockOp.fulfill 2, StockOp.release 1]
    (by decide) (by decide) rfl

/-- C7: on an item satisfying the field invariant, a successful
`reserve(q)` followed by `release(q)` succeeds and restores
`reserved_quantity` exactly, with `total_quantity` unchanged
throughout. -/
theorem reserve_release_roundtrip (item item1 : InventoryItem) (q : Int)
    (h0 : 0 ≤ item.reserved_quantity)
    (h1 : item.reserved_quantity ≤ item.total_quantity)
    (h : item.reserve q = .ok item1) :
    item1.total_quantity = item.total_quantity ∧
    item1.reserved_quantity = item.reserved_quantity + q ∧
    item1.release q = .ok item := by
  obtain ⟨pid, name, tq, rq⟩ := item
  have h0' : (0 : Int) ≤ rq := h0
  simp only [InventoryItem.reserve, InventoryItem.available_quantity] at h
  split at h
  · exact Except.noConfusion h
  · split at h
    · exact Except.noConfusion h
    · injection h with h
      subst h
      refine ⟨rfl, rfl, ?_⟩
      simp only [InventoryItem.release]
      rw [if_neg (by omega), if_neg (by simpa using by omega)]
      have hrq : rq + q - q = rq := by omega
      simp only [hrq]

/-- Witness for C7 at stock (10, 0), q = 3. -/
theorem reserve_release_roundtrip_witness :
    (InventoryItem.mk "1" "Widget" 10 3).total_quantity =
        (InventoryItem.mk "1" "Widget" 10 0).total_quantity ∧
    (InventoryItem.mk "1" "Widget" 10 3).reserved_quantity =
        (InventoryItem.mk "1" "Widget" 10 0).reserved_quantity + 3 ∧
    (InventoryItem.mk "1" "Widget" 10 3).release 3 =
        .ok (InventoryItem.mk "1" "Widget" 10 0) :=
  reserve_release_roundtrip ⟨"1", "Widget", 10, 0⟩ ⟨"1", "Widget", 10, 3⟩ 3
    (by decide) (by decide) rfl

/-!
## Money round-trip (claim C5)
-/

/-- Round to an integer with ties to even — the tie-breaking rule
(`ROUND_HALF_EVEN`) of Python's default decimal context. -/
def roundHalfEven (x : Rat) : Int :=
  let f := ⌊x⌋
  let frac := x - (f : Rat)
  if frac < 1/2 then f
  else if 1/2 < frac then f + 1
  else if f % 2 = 0 then f else f + 1

/-- `⌊log10 q⌋` for a positive rational (used for the significant-digit
position of a decimal value). -/
def ratLog10Floor (q : Rat) : Int :=
  if 1 ≤ q then (Nat.log 10 (⌊q⌋.toNat) : Int)
  else
    let l := Nat.log 10 (⌊q⁻¹⌋.toNat)
    if q⁻¹ = (10 : Rat) ^ l then -(l : Int) else -((l : Int) + 1)

/-- The rounding of Python's default decimal context (the source never
touches `getcontext()`, so `prec = 28`, `ROUND_HALF_EVEN`): an
arithmetic result is rounded to 28 significant digits.  Numerically
this is the tie-to-even-nearest multiple of `10 ^ (e - 27)` where
`e = ⌊log10 |q|⌋`; a value already representable with at most 28
significant digits is unchanged. -/
def decRound (q : Rat) : Rat :=
  if q = 0 then 0
  else
    let scale : Int := ratLog10Floor |q| - 27
    ((roundHalfEven (q / (10 : Rat) ^ scale) : Int) : Rat) * (10 : Rat) ^ scale

theorem roundHalfEven_nonneg (x : Rat) (hx : 0 ≤ x) : 0 ≤ roundHalfEven x := by
  have hf : 0 ≤ ⌊x⌋ := Int.floor_nonneg.mpr hx
  simp only [roundHalfEven]
  split_ifs <;> omega

theorem decRound_nonneg {q : Rat} (hq : 0 ≤ q) : 0 ≤ decRound q := by
  by_cases h0 : q = 0
  · simp [decRound, h0]
  · have hqpos : 0 < q := lt_of_le_of_ne hq (Ne.symm h0)
    simp only [decRound, if_neg h0]
    have hp : (0 : Rat) < (10 : Rat) ^ (ratLog10Floor |q| - 27) :=
      zpow_pos (by norm_num) _
    have hx : 0 ≤ q / (10 : Rat) ^ (ratLog10Floor |q| - 27) :=
      le_of_lt (div_pos hqpos hp)
    have hr := roundHalfEven_nonneg _ hx
    exact mul_nonneg (by exact_mod_cast hr) (le_of_lt hp)

/-- `Money.__add__` under the default decimal context: the `Decimal`
addition rounds the exact sum to 28 significant digits.  (`Money.add`
above is the exact-arithmetic simplification, sufficient where the
claims are insensitive to rounding.) -/
def Money.addDec (a b : Money) : Except DomainError Money :=
  if a.currency = b.currency then
    .ok ⟨decRound (a.amount + b.amount), a.currency,
      decRound_nonneg (add_nonneg a.nonneg b.nonneg)⟩
  else
    .error (.validationError ("Cannot combine " ++ a.currency ++ " with " ++ b.currency))

/-- `Money.__sub__` under the default decimal context: the `Decimal`
subtraction rounds the exact difference to 28 significant digits, and
the negative-result guard inspects the rounded value. -/
def Money.subDec (a b : Money) : Except DomainError Money :=
  if a.currency = b.currency then
    if h : decRound (a.amount - b.amount) < 0 then
      .error (.validationError "Money subtraction would result in a negative amount")
    else
      .ok ⟨decRound (a.amount - b.amount), a.currency, not_lt.mp h⟩
  else
    .error (.validationError ("Cannot combine " ++ a.currency ++ " with " ++ b.currency))

theorem roundHalfEven_intCast (z : Int) : roundHalfEven ((z : Rat)) = z := by
  simp only [roundHalfEven, Int.floor_intCast, sub_self]
  rw [if_pos (by norm_num)]

/-- A value that is an integer multiple of its rounding granularity is
a fixpoint of the context rounding. -/
theorem decRound_fix (q : Rat) (hq : q ≠ 0) (z : Int)
    (hz : q / (10 : Rat) ^ (ratLog10Floor |q| - 27) = (z : Rat)) :
    decRound q = q := by
  simp only [decRound, if_neg hq, hz, roundHalfEven_intCast]
  rw [← hz]
  exact div_mul_cancel₀ q (ne_of_gt (zpow_pos (by norm_num) _))

theorem ratLog10Floor_eq_natLog (q : Rat) (n : ℕ) (h1 : 1 ≤ q) (hf : ⌊q⌋ = (n : Int)) :
    ratLog10Floor q = (Nat.log 10 n : Int) := by
  simp only [ratLog10Floor, if_pos h1, hf, Int.toNat_natCast]

/-- One-digit amounts are unchanged by the context rounding. -/
theorem decRound_natCast_lt_ten (n : ℕ) (h1 : 1 ≤ n) (h2 : n < 10) :
    decRound ((n : Rat)) = (n : Rat) := by
  have hpos : (0 : Rat) < (n : Rat) := by exact_mod_cast h1
  have hq : ((n : Rat)) ≠ 0 := ne_of_gt hpos
  have habs : |(n : Rat)| = (n : Rat) := abs_of_pos hpos
  have hfl : ⌊(n : Rat)⌋ = (n : Int) := by exact_mod_cast Int.floor_natCast n
  have hlog : Nat.log 10 n = 0 :=
    Nat.log_eq_of_pow_le_of_lt_pow (by simpa using h1) (by simpa using h2)
  have he : ratLog10Floor |(n : Rat)| = 0 := by
    rw [habs, ratLog10Floor_eq_natLog _ n (by exact_mod_cast h1) hfl, hlog]
    rfl
  refine decRound_fix _ hq ((n : Int) * 10 ^ 27) ?_
  rw [he]
  rw [show ((0 : Int) - 27) = -((27 : ℕ) : Int) by norm_num, zpow_neg, zpow_natCast,
    div_eq_mul_inv, inv_inv]
  push_cast
  ring

/-- The sum `1 + 10^30` (31 significant digits) rounds down to `10^30`
under the default context. -/
theorem decRound_one_add_pow30 : decRound ((1 : Rat) + 10 ^ 30) = 10 ^ 30 := by
  have hpos : (0 : Rat) < 1 + 10 ^ 30 := by norm_num
  have hq : ((1 : Rat) + 10 ^ 30) ≠ 0 := ne_of_gt hpos
  have habs : |((1 : Rat) + 10 ^ 30)| = 1 + 10 ^ 30 := abs_of_pos hpos
  have hfl : ⌊((1 : Rat) + 10 ^ 30)⌋ = ((10 ^ 30 + 1 : ℕ) : Int) := by
    rw [show ((1 : Rat) + 10 ^ 30) = (((10 ^ 30 + 1 : ℕ) : Int) : Rat) by push_cast; ring]
    exact Int.floor_intCast _
  have hlog : Nat.log 10 (10 ^ 30 + 1) = 30 :=
    Nat.log_eq_of_pow_le_of_lt_pow (by norm_num) (by norm_num)
  have he : ratLog10Floor |(1 : Rat) + 10 ^ 30| = 30 := by
    rw [habs, ratLog10Floor_eq_natLog _ (10 ^ 30 + 1) (by norm_num) hfl, hlog]
    norm_num
  have hsc : ratLog10Floor |(1 : Rat) + 10 ^ 30| - 27 = (3 : Int) := by
    rw [he]
    norm_num
  have hzp : (10 : Rat) ^ (3 : Int) = 1000 := by
    rw [show (3 : Int) = ((3 : ℕ) : Int) from rfl, zpow_natCast]
    norm_num
  have hdiv : ((1 : Rat) + 10 ^ 30) / (10 : Rat) ^ (3 : Int) = 10 ^ 27 + 1 / 1000 := by
    rw [hzp, div_eq_iff (by norm_num : (1000 : Rat) ≠ 0)]
    ring_nf
  have hflx : ⌊((10 : Rat) ^ 27 + 1 / 1000)⌋ = ((10 ^ 27 : ℕ) : Int) := by
    rw [Int.floor_eq_iff]
    constructor
    · push_cast
      norm_num
    · push_cast
      norm_num
  have hrx : roundHalfEven ((10 : Rat) ^ 27 + 1 / 1000) = ((10 ^ 27 : ℕ) : Int) := by
    simp only [roundHalfEven, hflx]
    rw [if_pos (by push_cast; norm_num)]
  simp only [decRound, if_neg hq, hsc, hdiv, hrx]
  rw [hzp]
  push_cast
  ring

/-- C5 counterexample: the program's `Decimal` arithmetic runs under
the default context (28 significant digits, never changed in the
source), so for a = Money(1) and b = Money(10^30) the sum `1 + 10^30`
(31 digits) rounds to `1E+30`; subtracting b then yields Money(0) ≠ a.
The subtraction guard is not hit, but the round-trip drifts, refuting
the claim quantified over every pair of valid Money values. -/
theorem money_add_sub_roundtrip_counterexample :
    Money.addDec ⟨1, "USD", by norm_num⟩ ⟨10 ^ 30, "USD", by norm_num⟩ =
      .ok ⟨10 ^ 30, "USD", by norm_num⟩ ∧
    Money.subDec ⟨10 ^ 30, "USD", by norm_num⟩ ⟨10 ^ 30, "USD", by norm_num⟩ =
      .ok ⟨0, "USD", by norm_num⟩ ∧
    (⟨0, "USD", by norm_num⟩ : Money) ≠ ⟨1, "USD", by norm_num⟩ := by
  refine ⟨?_, ?_, ?_⟩
  · simp only [Money.addDec, if_true]
    exact congrArg Except.ok (money_ext decRound_one_add_pow30 rfl)
  · simp only [Money.subDec, if_true]
    have hz : ((10 ^ 30 : Rat) - 10 ^ 30) = 0 := by norm_num
    have h0 : decRound (0 : Rat) = 0 := by simp [decRound]
    simp only [hz, h0]
    rw [dif_neg (lt_irrefl (0 : Rat))]
  · intro h
    exact absurd (congrArg Money.amount h) (by norm_num)

/-- C5 (amended): for every two `Money` values of the same currency
whose exact sum — and whose first operand's amount — are unchanged by
the default context's rounding to 28 significant digits (in particular
all ordinary monetary amounts), the addition succeeds, the subtraction
does not hit the negative-result guard, and `(a + b) - b` is exactly
`a`, amount and currency identical. -/
theorem money_ctx_add_sub_roundtrip (a b : Money) (hc : a.currency = b.currency)
    (hsum : decRound (a.amount + b.amount) = a.amount + b.amount)
    (ha : decRound a.amount = a.amount) :
    ∃ c : Money, a.addDec b = .ok c ∧ c.currency = a.currency ∧ c.subDec b = .ok a := by
  refine ⟨⟨decRound (a.amount + b.amount), a.currency,
    decRound_nonneg (add_nonneg a.nonneg b.nonneg)⟩, ?_, rfl, ?_⟩
  · simp only [Money.addDec]
    rw [if_pos hc]
  · simp only [Money.subDec]
    rw [if_pos hc]
    have hval : decRound (decRound (a.amount + b.amount) - b.amount) = a.amount := by
      rw [hsum, add_sub_cancel_right, ha]
    simp only [hval]
    rw [dif_neg (not_lt.mpr a.nonneg)]

/-- Witness for C5 (amended) at a = $3, b = $4: both rounding
hypotheses hold at one-digit amounts and the round-trip is exact. -/
theorem money_ctx_add_sub_roundtrip_witness :
    decRound ((Money.mk 3 "USD" (by norm_num)).amount +
        (Money.mk 4 "USD" (by norm_num)).amount) =
      (Money.mk 3 "USD" (by norm_num)).amount +
        (Money.mk 4 "USD" (by norm_num)).amount ∧
    ∃ c : Money,
      (Money.mk 3 "USD" (by norm_num)).addDec ⟨4, "USD", by norm_num⟩ = .ok c ∧
      c.currency = (Money.mk 3 "USD" (by norm_num)).currency ∧
      c.subDec ⟨4, "USD", by norm_num⟩ = .ok ⟨3, "USD", by norm_num⟩ := by
  have hsum : decRound ((3 : Rat) + 4) = (3 : Rat) + 4 := by
    rw [show ((3 : Rat) + 4) = ((7 : ℕ) : Rat) by norm_num]
    exact decRound_natCast_lt_ten 7 (by norm_num) (by norm_num)
  have ha : decRound ((3 : Rat)) = (3 : Rat) := by
    rw [show ((3 : Rat)) = ((3 : ℕ) : Rat) by norm_num]
    exact decRound_natCast_lt_ten 3 (by norm_num) (by norm_num)
  exact ⟨hsum,
    money_ctx_add_sub_roundtrip ⟨3, "USD", by norm_num⟩ ⟨4, "USD", by norm_num⟩
      rfl hsum ha⟩

/-!
## Repository upsert lemmas (used by claims C1 and C10)
-/

theorem getByProductId_key {σ : List InventoryItem} {pid : String} {inv : InventoryItem}
    (h : getByProductId σ pid = some inv) : inv.product_id = pid := by
  simp only [getByProductId] at h
  have := List.find?_some h
  simpa using this

theorem getByProductId_save_self (σ : List InventoryItem) (item : InventoryItem) :
    getByProductId (saveInventoryItem σ item) item.product_id = some item := by
  induction σ with
  | nil => simp [saveInventoryItem, getByProductId]
  | cons raw rest ih =>
    by_cases hc : (raw.product_id == item.product_id) = true
    · simp [saveInventoryItem, hc, getByProductId]
    · have hc' : (raw.product_id == item.product_id) = false := by simpa using hc
      simp only [saveInventoryItem, hc', Bool.false_eq_true, if_false]
      simp only [getByProductId, List.find?] at ih ⊢
      rw [hc']
      exact ih

theorem getByProductId_save_other (σ : List InventoryItem) (item : InventoryItem)
    (pid : String) (hne : pid ≠ item.product_id) :
    getByProductId (saveInventoryItem σ item) pid = getByProductId σ pid := by
  induction σ with
  | nil =>
    simp only [saveInventoryItem, getByProductId, List.find?]
    rw [show (item.product_id == pid) = false by simpa using (Ne.symm hne)]
  | cons raw rest ih =>
    by_cases hc : (raw.product_id == item.product_id) = true
    · have hraw : raw.product_id ≠ pid := by
        rw [eq_of_beq hc]
        exact fun h2 => hne h2.symm
      simp only [saveInventoryItem, hc, if_true]
      simp only [getByProductId, List.find?]
      rw [show (item.product_id == pid) = false by simpa using (Ne.symm hne),
        show (raw.product_id == pid) = false by simpa using hraw]
    · have hc' : (raw.product_id == item.product_id) = false := by simpa using hc
      simp only [saveInventoryItem, hc', Bool.false_eq_true, if_false]
      simp only [getByProductId, List.find?] at ih ⊢
      cases hr : (raw.product_id == pid) with
      | true => rfl
      | false => exact ih

/-!
## Set-inventory upsert (claim C10)
-/

/-- C10: when the product exists (case-insensitive name lookup) and an
inventory record for it exists, `SetInventoryHandler.handle` overwrites
`total_quantity` with exactly the requested quantity and leaves
`product_id`, `product_name` and `reserved_quantity` unchanged,
without validating the quantity; in particular a quantity below the
current reservation leaves a persisted record with
`reserved_quantity > total_quantity`. -/
theorem set_inventory_upsert (ps : List Product) (σ : List InventoryItem)
    (product_name : String) (q : Int) (p : Product) (existing : InventoryItem)
    (hp : getByName ps product_name = some p)
    (hex : getByProductId σ p.id = some existing) :
    setInventory ps σ product_name q =
      .ok (saveInventoryItem σ { existing with total_quantity := q }) ∧
    getByProductId (saveInventoryItem σ { existing with total_quantity := q })
        existing.product_id =
      some (InventoryItem.mk existing.product_id existing.product_name q
        existing.reserved_quantity) ∧
    (q < existing.reserved_quantity →
      (InventoryItem.mk existing.product_id existing.product_name q
          existing.reserved_quantity).total_quantity <
        (InventoryItem.mk existing.product_id existing.product_name q
          existing.reserved_quantity).reserved_quantity) := by
  refine ⟨?_, ?_, fun hlt => hlt⟩
  · simp only [setInventory, hp, hex]
  · have h1 := getByProductId_save_self σ { existing with total_quantity := q }
    obtain ⟨pid, name, tq, rq⟩ := existing
    exact h1

/-- Witness for C10: catalog has Widget (id "1"), inventory record
(total 10, reserved 5); setting quantity 3 persists (total 3,
reserved 5) — reserved now exceeds total. -/
theorem set_inventory_upsert_witness :
    setInventory [⟨"1", "Widget", ⟨5, "USD", by norm_num⟩⟩]
        [⟨"1", "Widget", 10, 5⟩] "Widget" 3 =
      .ok (saveInventoryItem [⟨"1", "Widget", 10, 5⟩] ⟨"1", "Widget", 3, 5⟩) ∧
    getByProductId (saveInventoryItem [⟨"1", "Widget", 10, 5⟩] ⟨"1", "Widget", 3, 5⟩)
        "1" = some (InventoryItem.mk "1" "Widget" 3 5) ∧
    ((3 : Int) < 5 →
      (InventoryItem.mk "1" "Widget" 3 5).total_quantity <
        (InventoryItem.mk "1" "Widget" 3 5).reserved_quantity) :=
  set_inventory_upsert [⟨"1", "Widget", ⟨5, "USD", by norm_num⟩⟩]
    [⟨"1", "Widget", 10, 5⟩] "Widget" 3
    ⟨"1", "Widget", ⟨5, "USD", by norm_num⟩⟩ ⟨"1", "Widget", 10, 5⟩
    (by simp [getByName, List.find?]) (by decide)

/-!
## Shipment frame properties (claim C8) and shipment lemmas
-/

/-- The billing-relevant data of a line-item list: ordered quantities
and locked unit prices — all that `Order.total` consumes. -/
def billingData (items : List OrderLineItem) : List (Quantity × Money) :=
  items.map (fun item => (item.quantity, item.unit_price))

theorem totalLoop_congr {xs ys : List OrderLineItem}
    (h : billingData xs = billingData ys) (acc : Money) :
    totalLoop acc xs = totalLoop acc ys := by
  induction xs generalizing ys acc with
  | nil =>
    cases ys with
    | nil => rfl
    | cons y ys => simp [billingData] at h
  | cons x xs ih =>
    cases ys with
    | nil => simp [billingData] at h
    | cons y ys =>
      simp only [billingData, List.map_cons, List.cons.injEq] at h
      obtain ⟨hhead, htail⟩ := h
      have hq : x.quantity = y.quantity := congrArg Prod.fst hhead
      have hp : x.unit_price = y.unit_price := congrArg Prod.snd hhead
      have hlt : x.line_total = y.line_total := by
        simp only [OrderLineItem.line_total, hq, hp]
      cases hy : y.line_total with
      | error e => simp only [totalLoop, hlt, hy]
      | ok t =>
        cases hadd : acc.add t with
        | error e => simp only [totalLoop, hlt, hy, hadd]
        | ok acc' =>
          simp only [totalLoop, hlt, hy, hadd]
          exact ih htail acc'

theorem total_congr {o o' : Order} (h : billingData o'.items = billingData o.items) :
    o'.total = o.total :=
  totalLoop_congr h _

theorem ship_ok_eq {item item' : OrderLineItem} {qty : Int}
    (h : item.ship qty = .ok item') :
    item' = { item with shipped_quantity := item.shipped_quantity + qty } := by
  simp only [OrderLineItem.ship] at h
  split at h
  · exact Except.noConfusion h
  · split at h
    · exact Except.noConfusion h
    · injection h with h
      exact h.symm

theorem ship_succeeds {item : OrderLineItem} {qty : Int}
    (h1 : 0 < qty) (h2 : qty ≤ item.remaining_quantity) :
    item.ship qty = .ok { item with shipped_quantity := item.shipped_quantity + qty } := by
  simp only [OrderLineItem.ship]
  rw [if_neg (by omega), if_neg (by omega)]

/-- The pure effect of a successful `shipFirst`: add `qty` to the
shipped quantity of the first matching line item. -/
def updateFirst : List OrderLineItem → String → Int → List OrderLineItem
  | [], _, _ => []
  | item :: rest, pid, qty =>
    if item.product_id == pid then
      { item with shipped_quantity := item.shipped_quantity + qty } :: rest
    else
      item :: updateFirst rest pid qty

theorem shipFirst_ok_eq {items items' : List OrderLineItem} {pid : String} {qty : Int}
    (h : shipFirst items pid qty = .ok items') : items' = updateFirst items pid qty := by
  induction items generalizing items' with
  | nil => exact Except.noConfusion h
  | cons item rest ih =>
    simp only [shipFirst, updateFirst] at h ⊢
    by_cases hc : (item.product_id == pid) = true
    · simp only [hc, if_true] at h ⊢
      cases hs : item.ship qty with
      | error e => rw [hs] at h; exact Except.noConfusion h
      | ok item1 =>
        rw [hs] at h
        injection h with h
        rw [← h, ship_ok_eq hs]
    · have hc' : (item.product_id == pid) = false := by simpa using hc
      simp only [hc', Bool.false_eq_true, if_false] at h ⊢
      cases hs : shipFirst rest pid qty with
      | error e => rw [hs] at h; exact Except.noConfusion h
      | ok rest' =>
        rw [hs] at h
        injection h with h
        rw [← h, ih hs]

theorem billingData_updateFirst (items : List OrderLineItem) (pid : String) (qty : Int) :
    billingData (updateFirst items pid qty) = billingData items := by
  induction items with
  | nil => rfl
  | cons item rest ih =>
    by_cases hc : (item.product_id == pid) = true
    · simp [updateFirst, hc, billingData]
    · have hc' : (item.product_id == pid) = false := by simpa using hc
      simp only [updateFirst, hc', Bool.false_eq_true, if_false]
      simp only [billingData, List.map_cons] at ih ⊢
      rw [ih]

theorem shipAll_billing {qs : List (String × Int)} :
    ∀ {items items' : List OrderLineItem}, shipAll items qs = .ok items' →
      billingData items' = billingData items := by
  induction qs with
  | nil =>
    intro items items' h
    simp only [shipAll] at h
    injection h with h
    rw [h]
  | cons pq rest ih =>
    intro items items' h
    obtain ⟨pid, qty⟩ := pq
    simp only [shipAll] at h
    cases hs : shipFirst items pid qty with
    | error e => rw [hs] at h; exact Except.noConfusion h
    | ok items1 =>
      rw [hs] at h
      rw [ih h, shipFirst_ok_eq hs, billingData_updateFirst]

/-- Successful `fulfill_items` runs decomposed: the shipped items, the
untouched identity fields, and the auto-resolved status. -/
theorem fulfill_items_ok_shape {o o' : Order} {qs : List (String × Int)}
    (h : o.fulfill_items qs = .ok o') :
    ∃ items', shipAll o.items qs = .ok items' ∧
      o' = { o with
              items := items',
              status := (if items'.all OrderLineItem.is_fully_shipped
                then OrderStatus.fulfilled else OrderStatus.partially_fulfilled) } := by
  simp only [Order.fulfill_items] at h
  split at h
  · exact Except.noConfusion h
  · split at h
    · exact Except.noConfusion h
    · split at h
      · exact Except.noConfusion h
      · cases hs : shipAll o.items qs with
        | error e => rw [hs] at h; exact Except.noConfusion h
        | ok items' =>
          rw [hs] at h
          replace h : (if items'.all OrderLineItem.is_fully_shipped then
              Except.ok { o with items := items', status := OrderStatus.fulfilled }
            else
              Except.ok { o with items := items', status := OrderStatus.partially_fulfilled })
              = Except.ok o' := h
          refine ⟨items', rfl, ?_⟩
          by_cases hall : (items'.all OrderLineItem.is_fully_shipped) = true
          · rw [if_pos hall] at h ⊢
            injection h with h
            exact h.symm
          · rw [if_neg hall] at h ⊢
            injection h with h
            exact h.symm

/-- C8: a valid `ship(qty)` adds `qty` to `shipped_quantity` and
changes nothing else (the record-update form fixes `product_id`,
`product_name`, `quantity`, `unit_price`); consequently `line_total`
is unchanged, and the total of an order is unchanged by any successful
`fulfill_items` run (any sequence of successful `ship` calls). -/
theorem ship_preserves_billing (item : OrderLineItem) (qty : Int)
    (o o' : Order) (qs : List (String × Int))
    (h1 : 0 < qty) (h2 : qty ≤ item.remaining_quantity)
    (hf : o.fulfill_items qs = .ok o') :
    item.ship qty = .ok { item with shipped_quantity := item.shipped_quantity + qty } ∧
    ({ item with shipped_quantity := item.shipped_quantity + qty } : OrderLineItem).line_total
      = item.line_total ∧
    o'.total = o.total := by
  refine ⟨ship_succeeds h1 h2, rfl, ?_⟩
  obtain ⟨items', hs, ho'⟩ := fulfill_items_ok_shape hf
  subst ho'
  exact total_congr (shipAll_billing hs)

/-- Witness for C8: ship 2 of a 3-unit line; fulfill 2 Widgets on a
confirmed order keeps the order total. -/
theorem ship_preserves_billing_witness :
    (OrderLineItem.mk "1" "Widget" ⟨3, by norm_num⟩ ⟨15, "USD", by norm_num⟩ 0).ship 2 =
      .ok (OrderLineItem.mk "1" "Widget" ⟨3, by norm_num⟩ ⟨15, "USD", by norm_num⟩ (0 + 2)) ∧
    (OrderLineItem.mk "1" "Widget" ⟨3, by norm_num⟩ ⟨15, "USD", by norm_num⟩
        (0 + 2)).line_total =
      (OrderLineItem.mk "1" "Widget" ⟨3, by norm_num⟩ ⟨15, "USD", by norm_num⟩ 0).line_total ∧
    (Order.mk (some 1) "Alice"
        [⟨"1", "Widget", ⟨3, by norm_num⟩, ⟨15, "USD", by norm_num⟩, 2⟩]
        .partially_fulfilled).total =
      (Order.mk (some 1) "Alice"
        [⟨"1", "Widget", ⟨3, by norm_num⟩, ⟨15, "USD", by norm_num⟩, 0⟩]
        .confirmed).total :=
  ship_preserves_billing
    ⟨"1", "Widget", ⟨3, by norm_num⟩, ⟨15, "USD", by norm_num⟩, 0⟩ 2
    (Order.mk (some 1) "Alice"
      [⟨"1", "Widget", ⟨3, by norm_num⟩, ⟨15, "USD", by norm_num⟩, 0⟩] .confirmed)
    (Order.mk (some 1) "Alice"
      [⟨"1", "Widget", ⟨3, by norm_num⟩, ⟨15, "USD", by norm_num⟩, 2⟩]
      .partially_fulfilled)
    [("1", 2)] (by norm_num) (by decide) (by decide)

/-!
## Order creation (claim C2)
-/

theorem money_add_ok_currency {a b c : Money} (h : a.add b = .ok c) :
    c.currency = a.currency := by
  simp only [Money.add] at h
  split at h
  · injection h with h
    rw [← h]
  · exact Except.noConfusion h

theorem totalLoop_currency {items : List OrderLineItem} {acc t : Money}
    (h : totalLoop acc items = .ok t) : t.currency = acc.currency := by
  induction items generalizing acc with
  | nil =>
    simp only [totalLoop] at h
    injection h with h
    rw [← h]
  | cons item rest ih =>
    simp only [totalLoop] at h
    cases hlt : item.line_total with
    | error e => rw [hlt] at h; exact Except.noConfusion h
    | ok lt0 =>
      rw [hlt] at h
      replace h : (match acc.add lt0 with
        | Except.error e => Except.error e
        | Except.ok result' => totalLoop result' rest) = Except.ok t := h
      cases hadd : acc.add lt0 with
      | error e => rw [hadd] at h; exact Except.noConfusion h
      | ok acc' =>
        rw [hadd] at h
        replace h : totalLoop acc' rest = Except.ok t := h
        rw [ih h, money_add_ok_currency hadd]

theorem total_currency {o : Order} {t : Money} (h : o.total = .ok t) :
    t.currency = "USD" :=
  totalLoop_currency h

theorem money_add_ok (a b : Money) (h : a.currency = b.currency) :
    a.add b = .ok ⟨a.amount + b.amount, a.currency, add_nonneg a.nonneg b.nonneg⟩ := by
  simp only [Money.add]
  rw [if_pos h]

theorem money_add_mismatch (a b : Money) (h : a.currency ≠ b.currency) :
    a.add b =
      .error (.validationError ("Cannot combine " ++ a.currency ++ " with " ++ b.currency)) := by
  simp only [Money.add]
  rw [if_neg h]

theorem money_mul_ok (a : Money) (k : Int) (hk : 0 ≤ (k : Rat)) :
    a.mul k = .ok ⟨a.amount * (k : Rat), a.currency, mul_nonneg a.nonneg hk⟩ := by
  simp only [Money.mul]
  rw [dif_neg (not_lt.mpr (mul_nonneg a.nonneg hk))]

/-- `line_total` always computes: the ordered quantity is positive by
the `Quantity` invariant, so the product is non-negative. -/
theorem line_total_ok (item : OrderLineItem) :
    item.line_total = .ok ⟨item.unit_price.amount * (item.quantity.value : Rat),
      item.unit_price.currency,
      mul_nonneg item.unit_price.nonneg (by exact_mod_cast le_of_lt item.quantity.pos)⟩ :=
  money_mul_ok _ _ (by exact_mod_cast le_of_lt item.quantity.pos)

/-- `Order.create` past the three cheap guards: what remains is the
total computation and the minimum check. -/
theorem order_create_eval (customer_name : String) (items : List OrderLineItem)
    (h1 : pyStrip customer_name ≠ "") (h2 : items.isEmpty = false)
    (h3 : ¬ items.length > MAX_LINE_ITEMS) :
    Order.create customer_name items =
      (match (Order.mk none (pyStrip customer_name) items OrderStatus.draft).total with
        | Except.error e => Except.error e
        | Except.ok t =>
          match t.ltE MIN_ORDER_TOTAL with
          | Except.error e => Except.error e
          | Except.ok below =>
            if below then
              Except.error (.validationError "Order total below minimum")
            else
              Except.ok (Order.mk none (pyStrip customer_name) items OrderStatus.draft)) := by
  simp only [Order.create]
  rw [if_neg h1, h2]
  simp only [Bool.false_eq_true, if_false]
  rw [if_neg h3]

/-- C2 counterexample: a single line item priced in EUR.  `create`
raises a `ValidationError` (currency mismatch while accumulating the
total) although the customer name is non-blank, the item list is
non-empty and within the 50-item bound, and the computed total is not
below $10.00 (the total does not compute at all), so the claim's
"exactly when" enumeration of failure causes is incomplete. -/
theorem order_create_counterexample :
    Order.create "Alice"
        [⟨"1", "Widget", ⟨1, by norm_num⟩, ⟨20, "EUR", by norm_num⟩, 0⟩] =
      .error (.validationError "Cannot combine USD with EUR") ∧
    pyStrip "Alice" ≠ "" ∧
    ([(⟨"1", "Widget", ⟨1, by norm_num⟩, ⟨20, "EUR", by norm_num⟩, 0⟩ : OrderLineItem)] ≠ []) ∧
    ¬ [(⟨"1", "Widget", ⟨1, by norm_num⟩, ⟨20, "EUR", by norm_num⟩, 0⟩ : OrderLineItem)].length
        > MAX_LINE_ITEMS ∧
    (Order.mk none (pyStrip "Alice")
        [⟨"1", "Widget", ⟨1, by norm_num⟩, ⟨20, "EUR", by norm_num⟩, 0⟩]
        OrderStatus.draft).total =
      .error (.validationError "Cannot combine USD with EUR") := by
  have htot : (Order.mk none (pyStrip "Alice")
      [⟨"1", "Widget", ⟨1, by norm_num⟩, ⟨20, "EUR", by norm_num⟩, 0⟩]
      OrderStatus.draft).total =
      .error (.validationError "Cannot combine USD with EUR") := by
    simp only [Order.total, totalLoop, line_total_ok]
    rw [money_add_mismatch _ _ (by decide)]
    rfl
  refine ⟨?_, by decide, by decide, by decide, htot⟩
  rw [order_create_eval _ _ (by decide) (by decide) (by decide), htot]

/-- C2 (amended): `Order.create` either returns the DRAFT order with
the stripped customer name and the given items, or raises; and it
returns normally exactly when the name is non-blank after stripping,
the items are non-empty and at most 50, the total computes (every
unit price combines with the USD accumulator), and the computed total
is not strictly below $10.00.  (In particular a $10.00 total is
accepted and $9.99 rejected, and 50 items are accepted and 51
rejected.) -/
theorem order_create_characterization (customer_name : String) (items : List OrderLineItem) :
    (Order.create customer_name items =
        .ok (Order.mk none (pyStrip customer_name) items OrderStatus.draft) ∨
      ∃ e, Order.create customer_name items = .error e) ∧
    ((∃ o, Order.create customer_name items = .ok o) ↔
      (pyStrip customer_name ≠ "" ∧ items ≠ [] ∧ ¬ items.length > MAX_LINE_ITEMS ∧
        ∃ t : Money,
          (Order.mk none (pyStrip customer_name) items OrderStatus.draft).total = .ok t ∧
          ¬ t.amount < 10)) := by
  by_cases h1 : pyStrip customer_name = ""
  · constructor
    · right
      exact ⟨DomainError.validationError "Customer name is required",
        by simp [Order.create, h1]⟩
    · constructor
      · rintro ⟨o, ho⟩
        simp [Order.create, h1] at ho
      · rintro ⟨hn, -⟩
        exact absurd h1 hn
  · by_cases h2 : items = []
    · have h2' : items.isEmpty = true := by rw [h2]; rfl
      constructor
      · right
        exact ⟨DomainError.validationError "Order must contain at least one item",
          by simp [Order.create, h1, h2']⟩
      · constructor
        · rintro ⟨o, ho⟩
          simp [Order.create, h1, h2'] at ho
        · rintro ⟨-, hn, -⟩
          exact absurd h2 hn
    · have h2' : items.isEmpty = false := by
        cases items with
        | nil => exact absurd rfl h2
        | cons a l => rfl
      by_cases h3 : items.length > MAX_LINE_ITEMS
      · constructor
        · right
          exact ⟨DomainError.validationError "Maximum 50 items per order",
            by simp [Order.create, h1, h2', h3]⟩
        · constructor
          · rintro ⟨o, ho⟩
            simp [Order.create, h1, h2', h3] at ho
          · rintro ⟨-, -, hn, -⟩
            exact absurd h3 hn
      · have hcr : Order.create customer_name items =
            (match (Order.mk none (pyStrip customer_name) items OrderStatus.draft).total with
              | Except.error e => Except.error e
              | Except.ok t =>
                match t.ltE MIN_ORDER_TOTAL with
                | Except.error e => Except.error e
                | Except.ok below =>
                  if below then
                    Except.error (.validationError "Order total below minimum")
                  else
                    Except.ok (Order.mk none (pyStrip customer_name) items OrderStatus.draft)) := by
          simp only [Order.create]
          rw [if_neg h1, h2']
          simp only [Bool.false_eq_true, if_false]
          rw [if_neg h3]
        cases htot : (Order.mk none (pyStrip customer_name) items OrderStatus.draft).total with
        | error e =>
          rw [htot] at hcr
          constructor
          · right
            exact ⟨e, hcr⟩
          · constructor
            · rintro ⟨o, ho⟩
              rw [ho] at hcr
              exact Except.noConfusion hcr
            · rintro ⟨-, -, -, t, ht, -⟩
              exact Except.noConfusion ht
        | ok t =>
          rw [htot] at hcr
          have hlt : t.ltE MIN_ORDER_TOTAL = .ok (decide (t.amount < 10)) := by
            simp only [Money.ltE, MIN_ORDER_TOTAL]
            rw [if_pos (total_currency htot)]
          replace hcr : Order.create customer_name items =
              (match t.ltE MIN_ORDER_TOTAL with
                | Except.error e => Except.error e
                | Except.ok below =>
                  if below then
                    Except.error (.validationError "Order total below minimum")
                  else
                    Except.ok (Order.mk none (pyStrip customer_name) items
                      OrderStatus.draft)) := hcr
          rw [hlt] at hcr
          replace hcr : Order.create customer_name items =
              (if (decide (t.amount < 10)) then
                Except.error (.validationError "Order total below minimum")
              else
                Except.ok (Order.mk none (pyStrip customer_name) items OrderStatus.draft)) := hcr
          by_cases hbelow : t.amount < 10
          · rw [if_pos (by simpa using hbelow)] at hcr
            constructor
            · right
              exact ⟨_, hcr⟩
            · constructor
              · rintro ⟨o, ho⟩
                rw [ho] at hcr
                exact Except.noConfusion hcr
              · rintro ⟨-, -, -, t', ht', hge⟩
                injection ht' with ht'
                exact absurd (ht' ▸ hbelow) hge
          · rw [if_neg (by simpa using hbelow)] at hcr
            constructor
            · left
              exact hcr
            · constructor
              · intro _
                exact ⟨h1, h2, h3, t, rfl, hbelow⟩
              · intro _
                exact ⟨_, hcr⟩

/-- A $10.00 total is exactly at the minimum and accepted. -/
theorem order_create_accepts_min_total :
    Order.create "Alice" [⟨"1", "Widget", ⟨1, by norm_num⟩, ⟨10, "USD", by norm_num⟩, 0⟩] =
      .ok (Order.mk none "Alice"
        [⟨"1", "Widget", ⟨1, by norm_num⟩, ⟨10, "USD", by norm_num⟩, 0⟩]
        OrderStatus.draft) := by
  rw [order_create_eval _ _ (by decide) (by decide) (by decide)]
  simp only [Order.total, totalLoop, line_total_ok, money_add_ok, Money.ltE, MIN_ORDER_TOTAL]
  norm_num
  decide

/-- A $9.99 total is below the minimum and rejected. -/
theorem order_create_rejects_below_min_total :
    Order.create "Alice" [⟨"1", "Widget", ⟨1, by norm_num⟩, ⟨999/100, "USD", by norm_num⟩, 0⟩] =
      .error (.validationError "Order total below minimum") := by
  rw [order_create_eval _ _ (by decide) (by decide) (by decide)]
  simp only [Order.total, totalLoop, line_total_ok, money_add_ok, Money.ltE, MIN_ORDER_TOTAL]
  norm_num

theorem totalLoop_replicate (item : OrderLineItem) (t : Money)
    (hlt : item.line_total = .ok t) :
    ∀ (n : Nat) (acc : Money), acc.currency = t.currency →
      totalLoop acc (List.replicate n item) =
        .ok ⟨acc.amount + n * t.amount, acc.currency,
          add_nonneg acc.nonneg (mul_nonneg (Nat.cast_nonneg n) t.nonneg)⟩ := by
  intro n
  induction n with
  | zero =>
    intro acc hc
    simp only [List.replicate, totalLoop]
    exact congrArg Except.ok (money_ext (by push_cast; ring) rfl)
  | succ n ih =>
    intro acc hc
    simp only [List.replicate, totalLoop, hlt, money_add_ok acc t hc]
    rw [ih ⟨acc.amount + t.amount, acc.currency, add_nonneg acc.nonneg t.nonneg⟩ hc]
    exact congrArg Except.ok (money_ext (by push_cast; ring) rfl)

/-- 50 line items are accepted. -/
theorem order_create_accepts_50_items :
    Order.create "Alice"
        (List.replicate 50 ⟨"1", "Widget", ⟨1, by norm_num⟩, ⟨10, "USD", by norm_num⟩, 0⟩) =
      .ok (Order.mk none "Alice"
        (List.replicate 50 ⟨"1", "Widget", ⟨1, by norm_num⟩, ⟨10, "USD", by norm_num⟩, 0⟩)
        OrderStatus.draft) := by
  rw [order_create_eval _ _ (by decide) (by decide) (by decide)]
  rw [show pyStrip "Alice" = "Alice" by decide]
  rw [show (Order.mk none "Alice"
      (List.replicate 50 ⟨"1", "Widget", ⟨1, by norm_num⟩, ⟨10, "USD", by norm_num⟩, 0⟩)
      OrderStatus.draft).total =
    totalLoop ⟨0, "USD", le_refl 0⟩
      (List.replicate 50 ⟨"1", "Widget", ⟨1, by norm_num⟩, ⟨10, "USD", by norm_num⟩, 0⟩)
    from rfl]
  rw [totalLoop_replicate _ _ (line_total_ok _) 50 ⟨0, "USD", le_refl 0⟩ rfl]
  simp only [Money.ltE, MIN_ORDER_TOTAL]
  norm_num

/-- 51 line items are rejected. -/
theorem order_create_rejects_51_items :
    Order.create "Alice"
        (List.replicate 51 ⟨"1", "Widget", ⟨1, by norm_num⟩, ⟨10, "USD", by norm_num⟩, 0⟩) =
      .error (.validationError "Maximum 50 items per order") := by
  simp only [Order.create]
  rw [if_neg (by decide), show (List.replicate 51
      (⟨"1", "Widget", ⟨1, by norm_num⟩, ⟨10, "USD", by norm_num⟩, 0⟩ : OrderLineItem)).isEmpty
      = false by decide]
  simp only [Bool.false_eq_true, if_false]
  rw [if_pos (by simp [List.length_replicate, MAX_LINE_ITEMS])]

/-!
## Product creation and name uniqueness (claim C6)
-/

theorem money_of_error {s : String} {e : DomainError} (h : Money.of s = .error e) :
    ∃ msg, e = .validationError msg := by
  simp only [Money.of] at h
  split at h
  · injection h with h
    exact ⟨_, h.symm⟩
  · split at h
    · injection h with h
      exact ⟨_, h.symm⟩
    · exact Except.noConfusion h

/-- C6 counterexample: with `Widget` in the catalog, adding `widget`
(differing only in case) is REJECTED: the uniqueness check in
`AddProductHandler.handle` delegates to `get_by_name`, whose match is
case-insensitive, so the claimed case-sensitive uniqueness check (and
acceptance of a case-differing name) does not hold. -/
theorem add_product_counterexample :
    addProduct [⟨"1", "Widget", ⟨5, "USD", by norm_num⟩⟩] "widget" "4.00" =
      .error (.validationError "Product already exists: widget") ∧
    (⟨"1", "Widget", ⟨5, "USD", by norm_num⟩⟩ : Product).name ≠ "widget" := by
  constructor
  · simp only [addProduct]
    rw [if_neg (by decide), show getByName [⟨"1", "Widget", ⟨5, "USD", by norm_num⟩⟩] "widget"
      = some ⟨"1", "Widget", ⟨5, "USD", by norm_num⟩⟩ by simp [getByName, List.find?]; decide]
    rfl
  · decide

/-- C6 (amended): for a non-blank product name,
`AddProductHandler.handle` succeeds exactly when no existing product
matches the name case-insensitively and the price string parses; every
failure is a `ValidationError`; and on success the stripped name is
saved as a new product with the auto-assigned id.  A name differing
from an existing product only in letter case is rejected as a
duplicate, not accepted. -/
theorem add_product_characterization (ps : List Product) (name price : String)
    (hname : pyStrip name ≠ "") :
    ((∃ pr, addProduct ps name price = .ok pr) ↔
      (getByName ps name = none ∧ ∃ m, Money.of price = .ok m)) ∧
    (∀ e, addProduct ps name price = .error e → ∃ msg, e = .validationError msg) ∧
    (∀ product ps', addProduct ps name price = .ok (product, ps') →
      product.name = pyStrip name ∧ product.id = nextProductId ps ∧
      Money.of price = .ok product.price ∧ ps' = saveProduct ps product) := by
  have hout : addProduct ps name price =
      (match getByName ps name with
        | some _ => .error (.validationError ("Product already exists: " ++ name))
        | none =>
          match Money.of price with
          | .error e => .error e
          | .ok m =>
            .ok (⟨nextProductId ps, pyStrip name, m⟩,
              saveProduct ps ⟨nextProductId ps, pyStrip name, m⟩)) := by
    simp only [addProduct]
    rw [if_neg hname]
  cases hg : getByName ps name with
  | some p =>
    rw [hg] at hout
    refine ⟨?_, ?_, ?_⟩
    · constructor
      · rintro ⟨pr, hpr⟩
        rw [hpr] at hout
        exact Except.noConfusion hout
      · rintro ⟨hn, -⟩
        exact Option.noConfusion hn
    · intro e he
      rw [he] at hout
      injection hout with hout
      exact ⟨_, hout⟩
    · intro product ps' hok
      rw [hok] at hout
      exact Except.noConfusion hout
  | none =>
    rw [hg] at hout
    cases hm : Money.of price with
    | error e =>
      rw [hm] at hout
      refine ⟨?_, ?_, ?_⟩
      · constructor
        · rintro ⟨pr, hpr⟩
          rw [hpr] at hout
          exact Except.noConfusion hout
        · rintro ⟨-, m, hmok⟩
          exact Except.noConfusion hmok
      · intro e' he
        rw [he] at hout
        injection hout with hout
        exact money_of_error (hout ▸ hm)
      · intro product ps' hok
        rw [hok] at hout
        exact Except.noConfusion hout
    | ok m =>
      rw [hm] at hout
      refine ⟨?_, ?_, ?_⟩
      · exact ⟨fun _ => ⟨rfl, m, rfl⟩, fun _ => ⟨_, hout⟩⟩
      · intro e he
        rw [he] at hout
        exact Except.noConfusion hout
      · intro product ps' hok
        rw [hok] at hout
        injection hout with hout
        injection hout with h1 h2
        subst h1
        subst h2
        exact ⟨rfl, rfl, rfl, rfl⟩

/-- Witness for C6 (amended): adding `Gadget` at price `"4.50"` to a
catalog holding only `Widget`. -/
theorem add_product_characterization_witness :
    ((∃ pr, addProduct [⟨"1", "Widget", ⟨5, "USD", by norm_num⟩⟩] "Gadget" "4.50" = .ok pr) ↔
      (getByName [⟨"1", "Widget", ⟨5, "USD", by norm_num⟩⟩] "Gadget" = none ∧
        ∃ m, Money.of "4.50" = .ok m)) ∧
    (∀ e, addProduct [⟨"1", "Widget", ⟨5, "USD", by norm_num⟩⟩] "Gadget" "4.50" = .error e →
      ∃ msg, e = .validationError msg) ∧
    (∀ product ps',
      addProduct [⟨"1", "Widget", ⟨5, "USD", by norm_num⟩⟩] "Gadget" "4.50" =
        .ok (product, ps') →
      product.name = pyStrip "Gadget" ∧
      product.id = nextProductId [⟨"1", "Widget", ⟨5, "USD", by norm_num⟩⟩] ∧
      Money.of "4.50" = .ok product.price ∧
      ps' = saveProduct [⟨"1", "Widget", ⟨5, "USD", by norm_num⟩⟩] product) :=
  add_product_characterization [⟨"1", "Widget", ⟨5, "USD", by norm_num⟩⟩] "Gadget" "4.50"
    (by decide)

/-!
## `fulfill` as a refinement of `fulfill_items` (claim C9)
-/

/-- The map described by the spec's words for `fulfill`: "computes
`remaining_quantity` for every item with remaining > 0 and calls
`fulfill_items` with that full map" — i.e. the items with remaining
quantity, entered in item order into a dict keyed by product id. -/
def specRemainingMap (o : Order) : List (String × Int) :=
  (o.items.filter (fun item => item.remaining_quantity > 0)).foldl
    (fun d item => dictInsert d item.product_id item.remaining_quantity) []

theorem remainingMap_aux (items : List OrderLineItem) (d : List (String × Int)) :
    items.foldl
      (fun d item =>
        if item.remaining_quantity > 0 then
          dictInsert d item.product_id item.remaining_quantity
        else d) d =
    (items.filter (fun item => item.remaining_quantity > 0)).foldl
      (fun d item => dictInsert d item.product_id item.remaining_quantity) d := by
  induction items generalizing d with
  | nil => rfl
  | cons item rest ih =>
    by_cases hr : item.remaining_quantity > 0
    · simp only [List.foldl_cons, List.filter_cons, if_pos hr, hr, decide_eq_true_eq, if_true,
        List.foldl_cons]
      exact ih _
    · simp only [List.foldl_cons, List.filter_cons, if_neg hr, hr, decide_eq_true_eq, if_false,
        List.foldl_cons]
      exact ih _

theorem remainingMap_eq_spec (o : Order) : remainingMap o.items = specRemainingMap o :=
  remainingMap_aux o.items []

/-- `fulfill_items` on the empty map raises a `ValidationError` in
every status: FULFILLED and non-fulfillable statuses fail their status
checks, and the remaining statuses fail the non-empty-map check. -/
theorem fulfill_items_empty_error (o : Order) :
    ∃ msg, o.fulfill_items [] = .error (.validationError msg) := by
  simp only [Order.fulfill_items]
  by_cases h1 : o.status = OrderStatus.fulfilled
  · rw [if_pos h1]
    exact ⟨_, rfl⟩
  · rw [if_neg h1]
    by_cases h2 : o.status ≠ OrderStatus.confirmed ∧
        o.status ≠ OrderStatus.partially_fulfilled
    · rw [if_pos h2]
      exact ⟨_, rfl⟩
    · rw [if_neg h2, if_pos (by rfl)]
      exact ⟨_, rfl⟩

/-- C9: `fulfill()` is exactly `fulfill_items` applied to the map of
remaining quantities; when no item has remaining quantity that map is
empty, and `fulfill_items` on the empty map always raises (whatever
the status, a `ValidationError`), so `fulfill()` fails the same way. -/
theorem fulfill_refines_fulfill_items (o : Order) :
    o.fulfill = o.fulfill_items (specRemainingMap o) ∧
    ((∀ item ∈ o.items, ¬ item.remaining_quantity > 0) →
      specRemainingMap o = [] ∧ o.fulfill = o.fulfill_items []) ∧
    (∃ msg, o.fulfill_items [] = .error (.validationError msg)) := by
  have hdeleg : o.fulfill = o.fulfill_items (specRemainingMap o) := by
    show o.fulfill_items (remainingMap o.items) = _
    rw [remainingMap_eq_spec]
  refine ⟨hdeleg, ?_, ?_⟩
  · intro hall
    have hfil : o.items.filter (fun item => item.remaining_quantity > 0) = [] := by
      rw [List.filter_eq_nil_iff]
      intro item hmem
      simpa using hall item hmem
    have hempty : specRemainingMap o = [] := by
      simp only [specRemainingMap, hfil, List.foldl_nil]
    exact ⟨hempty, by rw [hdeleg, hempty]⟩
  · exact fulfill_items_empty_error o

/-- Witness for C9 at a concrete fully-shipped order: the remaining
map is empty and `fulfill` fails exactly as `fulfill_items({})`. -/
theorem fulfill_refines_fulfill_items_witness :
    (∀ item ∈ (Order.mk (some 1) "Alice"
        [⟨"1", "Widget", ⟨2, by norm_num⟩, ⟨10, "USD", by norm_num⟩, 2⟩]
        OrderStatus.fulfilled).items, ¬ item.remaining_quantity > 0) ∧
    specRemainingMap (Order.mk (some 1) "Alice"
        [⟨"1", "Widget", ⟨2, by norm_num⟩, ⟨10, "USD", by norm_num⟩, 2⟩]
        OrderStatus.fulfilled) = [] ∧
    (Order.mk (some 1) "Alice"
        [⟨"1", "Widget", ⟨2, by norm_num⟩, ⟨10, "USD", by norm_num⟩, 2⟩]
        OrderStatus.fulfilled).fulfill =
      (Order.mk (some 1) "Alice"
        [⟨"1", "Widget", ⟨2, by norm_num⟩, ⟨10, "USD", by norm_num⟩, 2⟩]
        OrderStatus.fulfilled).fulfill_items [] := by
  refine ⟨by decide, ?_⟩
  exact (fulfill_refines_fulfill_items (Order.mk (some 1) "Alice"
    [⟨"1", "Widget", ⟨2, by norm_num⟩, ⟨10, "USD", by norm_num⟩, 2⟩]
    OrderStatus.fulfilled)).2.1 (by decide)

/-!
## Two-phase reservation (claim C1)
-/

theorem forall₂_imp_mem {α β : Type} {R S : α → β → Prop} :
    ∀ {l₁ : List α} {l₂ : List β}, List.Forall₂ R l₁ l₂ →
      (∀ a ∈ l₁, ∀ b, R a b → S a b) → List.Forall₂ S l₁ l₂ := by
  intro l₁ l₂ hf
  induction hf with
  | nil => intro _; exact List.Forall₂.nil
  | cons h1 h2 ih =>
    intro himp
    exact List.Forall₂.cons (himp _ (List.mem_cons_self _ _) _ h1)
      (ih (fun a ha b hr => himp a (List.mem_cons_of_mem _ ha) b hr))

theorem forall₂_pairs_mem {α β : Type} {R : α → β → Prop} :
    ∀ {l₁ : List α} {l₂ : List β}, List.Forall₂ R l₁ l₂ →
      ∀ b ∈ l₂, ∃ a ∈ l₁, R a b := by
  intro l₁ l₂ hf
  induction hf with
  | nil => intro b hb; exact absurd hb (List.not_mem_nil _)
  | cons h1 h2 ih =>
    intro b hb
    cases List.mem_cons.mp hb with
    | inl hb' => exact ⟨_, List.mem_cons_self _ _, hb' ▸ h1⟩
    | inr hb' =>
      obtain ⟨a, ha, hr⟩ := ih b hb'
      exact ⟨a, List.mem_cons_of_mem _ ha, hr⟩

theorem reserve_step_ok (inv : InventoryItem) (q : Int) (hq0 : 0 < q)
    (hle : q ≤ inv.available_quantity) :
    inv.reserve q = .ok { inv with reserved_quantity := inv.reserved_quantity + q } := by
  simp only [InventoryItem.reserve]
  rw [if_neg (by omega), if_neg (not_lt.mpr hle)]

/-- Phase 1 failure analysis: an `EntityNotFoundError` comes from a line
with no inventory record, a `ValidationError` from a line whose quantity
exceeds availability; no mutation has happened. -/
theorem reservePhase1_error {σ : List InventoryItem} {e : DomainError} :
    ∀ {lines : List OrderLineItem}, reservePhase1 σ lines = .error e →
    (∃ msg, e = .entityNotFoundError msg ∧
      ∃ line ∈ lines, getByProductId σ line.product_id = none) ∨
    (∃ msg, e = .validationError msg ∧
      ∃ line ∈ lines, ∃ inv, getByProductId σ line.product_id = some inv ∧
        line.quantity.value > inv.available_quantity) := by
  intro lines
  induction lines with
  | nil => intro h; exact Except.noConfusion h
  | cons line rest ih =>
    intro h
    simp only [reservePhase1] at h
    cases hg : getByProductId σ line.product_id with
    | none =>
      simp only [hg] at h
      injection h with h
      exact Or.inl ⟨_, h.symm, line, List.mem_cons_self _ _, hg⟩
    | some inv =>
      simp only [hg] at h
      by_cases hq : line.quantity.value > inv.available_quantity
      · rw [if_pos hq] at h
        injection h with h
        exact Or.inr ⟨_, h.symm, line, List.mem_cons_self _ _, inv, hg, hq⟩
      · rw [if_neg hq] at h
        cases hp : reservePhase1 σ rest with
        | error e0 =>
          simp only [hp] at h
          injection h with h
          subst h
          cases ih hp with
          | inl hcase =>
            obtain ⟨msg, hmsg, l, hl, hnone⟩ := hcase
            exact Or.inl ⟨msg, hmsg, l, List.mem_cons_of_mem _ hl, hnone⟩
          | inr hcase =>
            obtain ⟨msg, hmsg, l, hl, inv2, hinv2, hgt⟩ := hcase
            exact Or.inr ⟨msg, hmsg, l, List.mem_cons_of_mem _ hl, inv2, hinv2, hgt⟩
        | ok pairs =>
          simp only [hp] at h
          exact Except.noConfusion h

/-- Phase 1 success: the collected pairs line up with the order lines
(loaded record, required quantity, availability check passed). -/
theorem reservePhase1_ok {σ : List InventoryItem} :
    ∀ {lines : List OrderLineItem} {pairs : List (InventoryItem × Int)},
    reservePhase1 σ lines = .ok pairs →
    List.Forall₂ (fun (line : OrderLineItem) (p : InventoryItem × Int) =>
      getByProductId σ line.product_id = some p.1 ∧ p.2 = line.quantity.value ∧
      p.2 ≤ p.1.available_quantity) lines pairs := by
  intro lines
  induction lines with
  | nil =>
    intro pairs h
    simp only [reservePhase1] at h
    injection h with h
    subst h
    exact List.Forall₂.nil
  | cons line rest ih =>
    intro pairs h
    simp only [reservePhase1] at h
    cases hg : getByProductId σ line.product_id with
    | none =>
      simp only [hg] at h
      exact Except.noConfusion h
    | some inv =>
      simp only [hg] at h
      by_cases hq : line.quantity.value > inv.available_quantity
      · rw [if_pos hq] at h
        exact Except.noConfusion h
      · rw [if_neg hq] at h
        cases hp : reservePhase1 σ rest with
        | error e0 =>
          simp only [hp] at h
          exact Except.noConfusion h
        | ok pairs' =>
          simp only [hp] at h
          injection h with h
          subst h
          exact List.Forall₂.cons ⟨hg, rfl, not_lt.mp hq⟩ (ih hp)

/-- Phase 2 can never fail on pairs whose availability check passed:
each `reserve` call is validated against the very snapshot it mutates. -/
theorem reservePhase2_no_error :
    ∀ (pairs : List (InventoryItem × Int)) (σ : List InventoryItem),
    (∀ p ∈ pairs, 0 < p.2 ∧ p.2 ≤ p.1.available_quantity) →
    (reservePhase2 pairs σ).2 = none := by
  intro pairs
  induction pairs with
  | nil => intro σ _; rfl
  | cons p rest ih =>
    intro σ hcond
    obtain ⟨inv, q⟩ := p
    obtain ⟨hq0, hle⟩ := hcond (inv, q) (List.mem_cons_self _ _)
    simp only [reservePhase2, reserve_step_ok inv q hq0 hle]
    exact ih _ (fun p hp => hcond p (List.mem_cons_of_mem _ hp))

/-- Phase 2 on pairs loaded from the current state, for pairwise
distinct product ids: no failure, untouched ids keep their records, and
each line's record gains exactly its quantity. -/
theorem reservePhase2_spec :
    ∀ (lines : List OrderLineItem) (pairs : List (InventoryItem × Int))
      (σ : List InventoryItem),
    List.Forall₂ (fun (line : OrderLineItem) (p : InventoryItem × Int) =>
      getByProductId σ line.product_id = some p.1 ∧ p.2 = line.quantity.value ∧
      p.2 ≤ p.1.available_quantity) lines pairs →
    (lines.map (fun l => l.product_id)).Nodup →
    ((∀ pid, pid ∉ lines.map (fun l => l.product_id) →
        getByProductId (reservePhase2 pairs σ).1 pid = getByProductId σ pid) ∧
      ∀ line ∈ lines, ∃ inv, getByProductId σ line.product_id = some inv ∧
        getByProductId (reservePhase2 pairs σ).1 line.product_id =
          some { inv with reserved_quantity := inv.reserved_quantity + line.quantity.value }) := by
  intro lines
  induction lines with
  | nil =>
    intro pairs σ hf _
    cases hf
    exact ⟨fun pid _ => rfl, fun line hline => absurd hline (List.not_mem_nil _)⟩
  | cons line rest ih =>
    intro pairs σ hf hnodup
    rcases hf with - | ⟨hrel, hrest⟩
    rename_i p ps
    obtain ⟨inv, q⟩ := p
    obtain ⟨hget, hqeq, hle⟩ := hrel
    replace hget : getByProductId σ line.product_id = some inv := hget
    replace hqeq : q = line.quantity.value := hqeq
    replace hle : q ≤ inv.available_quantity := hle
    have hq0 : 0 < q := by rw [hqeq]; exact line.quantity.pos
    have hkey : inv.product_id = line.product_id := getByProductId_key hget
    have hhead : line.product_id ∉ rest.map (fun l => l.product_id) :=
      (List.nodup_cons.mp hnodup).1
    have hnodup' : (rest.map (fun l => l.product_id)).Nodup :=
      (List.nodup_cons.mp hnodup).2
    have hupd : ({ inv with reserved_quantity := inv.reserved_quantity + q
        } : InventoryItem).product_id = line.product_id := hkey
    simp only [reservePhase2, reserve_step_ok inv q hq0 hle]
    have hσ1 : ∀ pid, pid ≠ line.product_id →
        getByProductId (saveInventoryItem σ
          { inv with reserved_quantity := inv.reserved_quantity + q }) pid =
        getByProductId σ pid := by
      intro pid hne
      exact getByProductId_save_other σ _ pid (by rw [hupd]; exact hne)
    have hrest1 : List.Forall₂ (fun (l : OrderLineItem) (p : InventoryItem × Int) =>
        getByProductId (saveInventoryItem σ
          { inv with reserved_quantity := inv.reserved_quantity + q }) l.product_id
          = some p.1 ∧
        p.2 = l.quantity.value ∧ p.2 ≤ p.1.available_quantity) rest ps := by
      refine forall₂_imp_mem hrest ?_
      intro l hl p hr
      have hne : l.product_id ≠ line.product_id := by
        intro hEq
        exact hhead (hEq ▸ List.mem_map_of_mem (fun l => l.product_id) hl)
      exact ⟨(hσ1 l.product_id hne) ▸ hr.1, hr.2⟩
    obtain ⟨hframe, hmain⟩ := ih ps
      (saveInventoryItem σ { inv with reserved_quantity := inv.reserved_quantity + q })
      hrest1 hnodup'
    constructor
    · intro pid hpid
      have hpid1 : pid ≠ line.product_id := by
        intro hEq
        exact hpid (hEq ▸ List.mem_cons_self _ _)
      have hpid2 : pid ∉ rest.map (fun l => l.product_id) := by
        intro hmem
        exact hpid (List.mem_cons_of_mem _ hmem)
      rw [hframe pid hpid2]
      exact hσ1 pid hpid1
    · intro l hl
      cases List.mem_cons.mp hl with
      | inl hl' =>
        subst hl'
        refine ⟨inv, hget, ?_⟩
        rw [hframe l.product_id hhead, ← hupd, getByProductId_save_self, hqeq]
      | inr hl' =>
        obtain ⟨inv2, hget2, hfin2⟩ := hmain l hl'
        have hne : l.product_id ≠ line.product_id := by
          intro hEq
          exact hhead (hEq ▸ List.mem_map_of_mem (fun l => l.product_id) hl')
        refine ⟨inv2, ?_, hfin2⟩
        rw [← hσ1 l.product_id hne]
        exact hget2

/-- C1 (amended): `reserve_for_order` run against the repository
contents (value semantics: `get` loads a fresh record, `save` writes it
back, as the JSON repository does).  If it raises, the repository is
unchanged — the error is an `EntityNotFoundError` for a line with no
record or a `ValidationError` for a line exceeding availability.  If it
returns normally and the order's line items carry pairwise-distinct
product ids, every line's record has `reserved_quantity` increased by
exactly that line's quantity and is persisted.  (With duplicate product
ids the claim fails: the later save overwrites the earlier one — see
the counterexample.) -/
theorem reserve_for_order_atomic (order : Order) (σ : List InventoryItem) :
    (∀ σ' e, reserve_for_order order σ = (σ', some e) → σ' = σ ∧
      ((∃ msg, e = .entityNotFoundError msg ∧
          ∃ line ∈ order.items, getByProductId σ line.product_id = none) ∨
       (∃ msg, e = .validationError msg ∧
          ∃ line ∈ order.items, ∃ inv, getByProductId σ line.product_id = some inv ∧
            line.quantity.value > inv.available_quantity))) ∧
    ((order.items.map (fun l => l.product_id)).Nodup →
      ∀ σ', reserve_for_order order σ = (σ', none) →
        ∀ line ∈ order.items, ∃ inv,
          getByProductId σ line.product_id = some inv ∧
          getByProductId σ' line.product_id =
            some { inv with reserved_quantity := inv.reserved_quantity + line.quantity.value }) := by
  constructor
  · intro σ' e h
    simp only [reserve_for_order] at h
    cases h1 : reservePhase1 σ order.items with
    | error e0 =>
      simp only [h1] at h
      injection h with hfst hsnd
      injection hsnd with hsnd
      exact ⟨hfst.symm, hsnd ▸ reservePhase1_error h1⟩
    | ok pairs =>
      simp only [h1] at h
      have hf := reservePhase1_ok h1
      have hcond : ∀ p ∈ pairs, 0 < p.2 ∧ p.2 ≤ p.1.available_quantity := by
        intro p hp
        obtain ⟨l, -, hr⟩ := forall₂_pairs_mem hf p hp
        exact ⟨by rw [hr.2.1]; exact l.quantity.pos, hr.2.2⟩
      have hnone := reservePhase2_no_error pairs σ hcond
      rw [h] at hnone
      exact Option.noConfusion hnone
  · intro hnodup σ' h
    simp only [reserve_for_order] at h
    cases h1 : reservePhase1 σ order.items with
    | error e0 =>
      simp only [h1] at h
      injection h with hfst hsnd
      exact Option.noConfusion hsnd
    | ok pairs =>
      simp only [h1] at h
      have hf := reservePhase1_ok h1
      obtain ⟨-, hmain⟩ := reservePhase2_spec order.items pairs σ hf hnodup
      intro line hline
      obtain ⟨inv, hget, hfin⟩ := hmain line hline
      rw [h] at hfin
      exact ⟨inv, hget, hfin⟩

/-- C1 counterexample: an order with two line items for the same
product (quantities 1 and 2 against stock 100).  `reserve_for_order`
returns normally, but the final record carries reservation 2 — only the
last line's reservation survives, because phase 2 saves two
independently loaded snapshots and the second save overwrites the
first.  Line 1's requirement (reserved from 0 to 1) does not hold. -/
theorem reserve_for_order_counterexample :
    reserve_for_order
        (Order.mk (some 1) "Test"
          [⟨"1", "Widget", ⟨1, by norm_num⟩, ⟨10, "USD", by norm_num⟩, 0⟩,
           ⟨"1", "Widget", ⟨2, by norm_num⟩, ⟨10, "USD", by norm_num⟩, 0⟩]
          OrderStatus.draft)
        [⟨"1", "Widget", 100, 0⟩] =
      ([⟨"1", "Widget", 100, 2⟩], none) ∧
    getByProductId
        (reserve_for_order
          (Order.mk (some 1) "Test"
            [⟨"1", "Widget", ⟨1, by norm_num⟩, ⟨10, "USD", by norm_num⟩, 0⟩,
             ⟨"1", "Widget", ⟨2, by norm_num⟩, ⟨10, "USD", by norm_num⟩, 0⟩]
            OrderStatus.draft)
          [⟨"1", "Widget", 100, 0⟩]).1 "1" ≠
      some (InventoryItem.mk "1" "Widget" 100 (0 + 1)) := by
  exact ⟨by decide, by decide⟩

/-- Witness for C1: a two-product order against sufficient stock —
the run succeeds and both records gain exactly their line quantities. -/
theorem reserve_for_order_atomic_witness :
    ((Order.mk (some 1) "Test"
        [⟨"1", "Widget", ⟨10, by norm_num⟩, ⟨10, "USD", by norm_num⟩, 0⟩,
         ⟨"2", "Gadget", ⟨5, by norm_num⟩, ⟨10, "USD", by norm_num⟩, 0⟩]
        OrderStatus.draft).items.map (fun l => l.product_id)).Nodup ∧
    reserve_for_order
        (Order.mk (some 1) "Test"
          [⟨"1", "Widget", ⟨10, by norm_num⟩, ⟨10, "USD", by norm_num⟩, 0⟩,
           ⟨"2", "Gadget", ⟨5, by norm_num⟩, ⟨10, "USD", by norm_num⟩, 0⟩]
          OrderStatus.draft)
        [⟨"1", "Widget", 100, 0⟩, ⟨"2", "Gadget", 50, 0⟩] =
      ([⟨"1", "Widget", 100, 10⟩, ⟨"2", "Gadget", 50, 5⟩], none) ∧
    ∀ line ∈ (Order.mk (some 1) "Test"
        [⟨"1", "Widget", ⟨10, by norm_num⟩, ⟨10, "USD", by norm_num⟩, 0⟩,
         ⟨"2", "Gadget", ⟨5, by norm_num⟩, ⟨10, "USD", by norm_num⟩, 0⟩]
        OrderStatus.draft).items, ∃ inv,
      getByProductId [⟨"1", "Widget", 100, 0⟩, ⟨"2", "Gadget", 50, 0⟩]
          line.product_id = some inv ∧
      getByProductId [⟨"1", "Widget", 100, 10⟩, ⟨"2", "Gadget", 50, 5⟩]
          line.product_id =
        some { inv with reserved_quantity := inv.reserved_quantity + line.quantity.value } :=
  ⟨by decide, by decide,
    (reserve_for_order_atomic
      (Order.mk (some 1) "Test"
        [⟨"1", "Widget", ⟨10, by norm_num⟩, ⟨10, "USD", by norm_num⟩, 0⟩,
         ⟨"2", "Gadget", ⟨5, by norm_num⟩, ⟨10, "USD", by norm_num⟩, 0⟩]
        OrderStatus.draft)
      [⟨"1", "Widget", 100, 0⟩, ⟨"2", "Gadget", 50, 0⟩]).2
      (by decide) [⟨"1", "Widget", 100, 10⟩, ⟨"2", "Gadget", 50, 5⟩] (by decide)⟩

/-!
## Targeted fulfillment (claim C3)
-/

theorem findItem?_updateFirst_self (items : List OrderLineItem) (pid : String) (qty : Int) :
    findItem? (updateFirst items pid qty) pid =
      (findItem? items pid).map
        (fun it => { it with shipped_quantity := it.shipped_quantity + qty }) := by
  induction items with
  | nil => rfl
  | cons item rest ih =>
    by_cases hc : (item.product_id == pid) = true
    · simp [updateFirst, findItem?, List.find?, hc]
    · have hc' : (item.product_id == pid) = false := by simpa using hc
      simp only [updateFirst, hc', Bool.false_eq_true, if_false]
      simp only [findItem?, List.find?] at ih ⊢
      rw [hc']
      exact ih

theorem findItem?_updateFirst_other (items : List OrderLineItem) (pid pid' : String)
    (qty : Int) (hne : pid' ≠ pid) :
    findItem? (updateFirst items pid qty) pid' = findItem? items pid' := by
  induction items with
  | nil => rfl
  | cons item rest ih =>
    by_cases hc : (item.product_id == pid) = true
    · have hip : item.product_id = pid := eq_of_beq hc
      have hskip : (item.product_id == pid') = false := by
        simp only [beq_eq_false_iff_ne, ne_eq, hip]
        exact fun hEq => hne hEq.symm
      simp only [updateFirst, hc, if_true]
      simp only [findItem?, List.find?]
      rw [hskip]
    · have hc' : (item.product_id == pid) = false := by simpa using hc
      simp only [updateFirst, hc', Bool.false_eq_true, if_false]
      simp only [findItem?, List.find?] at ih ⊢
      cases hd : (item.product_id == pid') with
      | true => rfl
      | false => exact ih

theorem shipFirst_eq {items : List OrderLineItem} {pid : String} {qty : Int}
    {item : OrderLineItem} (hfind : findItem? items pid = some item)
    (h1 : 0 < qty) (h2 : qty ≤ item.remaining_quantity) :
    shipFirst items pid qty = .ok (updateFirst items pid qty) := by
  induction items with
  | nil => exact Option.noConfusion hfind
  | cons it rest ih =>
    by_cases hc : (it.product_id == pid) = true
    · have hit : it = item := by
        simp only [findItem?, List.find?] at hfind
        rw [hc] at hfind
        exact Option.some.inj hfind
      subst hit
      simp only [shipFirst, updateFirst, hc, if_true]
      rw [ship_succeeds h1 h2]
    · have hc' : (it.product_id == pid) = false := by simpa using hc
      have hfind' : findItem? rest pid = some item := by
        simp only [findItem?, List.find?] at hfind
        rw [hc'] at hfind
        exact hfind
      simp only [shipFirst, updateFirst, hc', Bool.false_eq_true, if_false]
      rw [ih hfind']

/-- The shipment loop of `fulfill_items` on a dict whose entries each
name a present line item within its remaining quantity: it succeeds,
each named line's first match gains its quantity, and other product
ids see no change. -/
theorem shipAll_spec :
    ∀ (quantities : List (String × Int)) (items : List OrderLineItem),
    (quantities.map Prod.fst).Nodup →
    (∀ pq ∈ quantities, ∃ item, findItem? items pq.1 = some item ∧
        0 < pq.2 ∧ pq.2 ≤ item.remaining_quantity) →
    ∃ items', shipAll items quantities = .ok items' ∧
      (∀ pq ∈ quantities, ∀ item, findItem? items pq.1 = some item →
          findItem? items' pq.1 =
            some { item with shipped_quantity := item.shipped_quantity + pq.2 }) ∧
      (∀ pid, pid ∉ quantities.map Prod.fst →
        findItem? items' pid = findItem? items pid) := by
  intro quantities
  induction quantities with
  | nil =>
    intro items _ _
    exact ⟨items, rfl, fun pq hpq => absurd hpq (List.not_mem_nil _), fun _ _ => rfl⟩
  | cons pq rest ih =>
    intro items hnodup hcond
    obtain ⟨pid, qty⟩ := pq
    obtain ⟨item, hfind, h1, h2⟩ := hcond (pid, qty) (List.mem_cons_self _ _)
    replace hfind : findItem? items pid = some item := hfind
    replace h1 : (0 : Int) < qty := h1
    replace h2 : qty ≤ item.remaining_quantity := h2
    have hship := shipFirst_eq hfind h1 h2
    have hhead : pid ∉ rest.map Prod.fst := (List.nodup_cons.mp hnodup).1
    have hnodup' : (rest.map Prod.fst).Nodup := (List.nodup_cons.mp hnodup).2
    have hcond' : ∀ pq' ∈ rest, ∃ it,
        findItem? (updateFirst items pid qty) pq'.1 = some it ∧
        0 < pq'.2 ∧ pq'.2 ≤ it.remaining_quantity := by
      intro pq' hpq'
      obtain ⟨it, hf, ha, hb⟩ := hcond pq' (List.mem_cons_of_mem _ hpq')
      have hne : pq'.1 ≠ pid := fun hEq =>
        hhead (hEq ▸ List.mem_map_of_mem Prod.fst hpq')
      refine ⟨it, ?_, ha, hb⟩
      rw [findItem?_updateFirst_other items pid pq'.1 qty hne]
      exact hf
    obtain ⟨items', hstep, hmain, hframe⟩ := ih (updateFirst items pid qty) hnodup' hcond'
    refine ⟨items', ?_, ?_, ?_⟩
    · simp only [shipAll, hship]
      exact hstep
    · intro pq' hpq' it hfind'
      cases List.mem_cons.mp hpq' with
      | inl hEq =>
        subst hEq
        have hit : it = item := by
          rw [hfind] at hfind'
          exact (Option.some.inj hfind').symm
        subst hit
        rw [hframe pid hhead, findItem?_updateFirst_self items pid qty, hfind]
        rfl
      | inr hpq'' =>
        have hne : pq'.1 ≠ pid := fun hEq =>
          hhead (hEq ▸ List.mem_map_of_mem Prod.fst hpq'')
        refine hmain pq' hpq'' it ?_
        rw [findItem?_updateFirst_other items pid pq'.1 qty hne]
        exact hfind'
    · intro pid' hpid'
      have hne : pid' ≠ pid := fun hEq => hpid' (hEq ▸ List.mem_cons_self _ _)
      have hnm : pid' ∉ rest.map Prod.fst := fun hm => hpid' (List.mem_cons_of_mem _ hm)
      rw [hframe pid' hnm, findItem?_updateFirst_other items pid pid' qty hne]

theorem all_fully_shipped_iff (items : List OrderLineItem) :
    items.all OrderLineItem.is_fully_shipped = true ↔
      ∀ item ∈ items, item.remaining_quantity = 0 := by
  simp [List.all_eq_true, OrderLineItem.is_fully_shipped]

/-- C3: on a dict of quantities whose keys each name a line item of the
order, with each quantity positive and within that line's remaining
quantity — if the status is CONFIRMED or PARTIALLY_FULFILLED and the
dict is non-empty, `fulfill_items` succeeds, adds each named quantity
to the (first) matching line's shipped quantity, and resolves the
status to FULFILLED when every line has remaining 0 and to
PARTIALLY_FULFILLED otherwise; it raises a `ValidationError` when the
status is FULFILLED, when the status is outside
{CONFIRMED, PARTIALLY_FULFILLED}, and when the dict is empty. -/
theorem fulfill_items_spec (o : Order) (quantities : List (String × Int))
    (hnodup : (quantities.map Prod.fst).Nodup)
    (hq : ∀ pq ∈ quantities, ∃ item, findItem? o.items pq.1 = some item ∧
        0 < pq.2 ∧ pq.2 ≤ item.remaining_quantity) :
    ((o.status = OrderStatus.confirmed ∨ o.status = OrderStatus.partially_fulfilled) →
      quantities ≠ [] →
      ∃ o', o.fulfill_items quantities = .ok o' ∧
        (∀ pq ∈ quantities, ∀ item, findItem? o.items pq.1 = some item →
          findItem? o'.items pq.1 =
            some { item with shipped_quantity := item.shipped_quantity + pq.2 }) ∧
        ((∀ item ∈ o'.items, item.remaining_quantity = 0) →
          o'.status = OrderStatus.fulfilled) ∧
        ((∃ item ∈ o'.items, item.remaining_quantity ≠ 0) →
          o'.status = OrderStatus.partially_fulfilled)) ∧
    (o.status = OrderStatus.fulfilled →
      ∃ msg, o.fulfill_items quantities = .error (.validationError msg)) ∧
    ((o.status ≠ OrderStatus.confirmed ∧ o.status ≠ OrderStatus.partially_fulfilled) →
      ∃ msg, o.fulfill_items quantities = .error (.validationError msg)) ∧
    (quantities = [] →
      ∃ msg, o.fulfill_items quantities = .error (.validationError msg)) := by
  refine ⟨?_, ?_, ?_, ?_⟩
  · intro hst hne
    have hful : o.status ≠ OrderStatus.fulfilled := by
      cases hst with
      | inl h => rw [h]; exact fun hh => OrderStatus.noConfusion hh
      | inr h => rw [h]; exact fun hh => OrderStatus.noConfusion hh
    have hopen : ¬ (o.status ≠ OrderStatus.confirmed ∧
        o.status ≠ OrderStatus.partially_fulfilled) := by
      rintro ⟨ha, hb⟩
      cases hst with
      | inl h => exact ha h
      | inr h => exact hb h
    have hempty : quantities.isEmpty = false := by
      cases quantities with
      | nil => exact absurd rfl hne
      | cons a l => rfl
    obtain ⟨items', hstep, hmain, -⟩ := shipAll_spec quantities o.items hnodup hq
    simp only [Order.fulfill_items]
    rw [if_neg hful, if_neg hopen, hempty]
    simp only [Bool.false_eq_true, if_false]
    simp only [hstep]
    by_cases hall : (items'.all OrderLineItem.is_fully_shipped) = true
    · rw [if_pos hall]
      refine ⟨_, rfl, hmain, fun _ => rfl, ?_⟩
      rintro ⟨item, hitem, hrem⟩
      exact absurd ((all_fully_shipped_iff items').mp hall item hitem) hrem
    · rw [if_neg hall]
      refine ⟨_, rfl, hmain, ?_, fun _ => rfl⟩
      intro hallrem
      exact absurd ((all_fully_shipped_iff items').mpr hallrem) hall
  · intro hst
    simp only [Order.fulfill_items]
    rw [if_pos hst]
    exact ⟨_, rfl⟩
  · intro hst
    simp only [Order.fulfill_items]
    by_cases hful : o.status = OrderStatus.fulfilled
    · rw [if_pos hful]
      exact ⟨_, rfl⟩
    · rw [if_neg hful, if_pos hst]
      exact ⟨_, rfl⟩
  · intro hempty
    subst hempty
    exact fulfill_items_empty_error o

/-- Witness for C3: partially fulfill 2 of 3 Widgets on a confirmed
one-line order. -/
theorem fulfill_items_spec_witness :
    (((Order.mk (some 1) "Alice"
        [⟨"1", "Widget", ⟨3, by norm_num⟩, ⟨15, "USD", by norm_num⟩, 0⟩]
        OrderStatus.confirmed).status = OrderStatus.confirmed ∨
      (Order.mk (some 1) "Alice"
        [⟨"1", "Widget", ⟨3, by norm_num⟩, ⟨15, "USD", by norm_num⟩, 0⟩]
        OrderStatus.confirmed).status = OrderStatus.partially_fulfilled) →
      ([(("1" : String), (2 : Int))] ≠ []) →
      ∃ o', (Order.mk (some 1) "Alice"
          [⟨"1", "Widget", ⟨3, by norm_num⟩, ⟨15, "USD", by norm_num⟩, 0⟩]
          OrderStatus.confirmed).fulfill_items [("1", 2)] = .ok o' ∧
        (∀ pq ∈ [(("1" : String), (2 : Int))], ∀ item,
          findItem? (Order.mk (some 1) "Alice"
            [⟨"1", "Widget", ⟨3, by norm_num⟩, ⟨15, "USD", by norm_num⟩, 0⟩]
            OrderStatus.confirmed).items pq.1 = some item →
          findItem? o'.items pq.1 =
            some { item with shipped_quantity := item.shipped_quantity + pq.2 }) ∧
        ((∀ item ∈ o'.items, item.remaining_quantity = 0) →
          o'.status = OrderStatus.fulfilled) ∧
        ((∃ item ∈ o'.items, item.remaining_quantity ≠ 0) →
          o'.status = OrderStatus.partially_fulfilled)) ∧
    ((Order.mk (some 1) "Alice"
        [⟨"1", "Widget", ⟨3, by norm_num⟩, ⟨15, "USD", by norm_num⟩, 0⟩]
        OrderStatus.confirmed).status = OrderStatus.fulfilled →
      ∃ msg, (Order.mk (some 1) "Alice"
        [⟨"1", "Widget", ⟨3, by norm_num⟩, ⟨15, "USD", by norm_num⟩, 0⟩]
        OrderStatus.confirmed).fulfill_items [("1", 2)] =
          .error (.validationError msg)) ∧
    (((Order.mk (some 1) "Alice"
        [⟨"1", "Widget", ⟨3, by norm_num⟩, ⟨15, "USD", by norm_num⟩, 0⟩]
        OrderStatus.confirmed).status ≠ OrderStatus.confirmed ∧
      (Order.mk (some 1) "Alice"
        [⟨"1", "Widget", ⟨3, by norm_num⟩, ⟨15, "USD", by norm_num⟩, 0⟩]
        OrderStatus.confirmed).status ≠ OrderStatus.partially_fulfilled) →
      ∃ msg, (Order.mk (some 1) "Alice"
        [⟨"1", "Widget", ⟨3, by norm_num⟩, ⟨15, "USD", by norm_num⟩, 0⟩]
        OrderStatus.confirmed).fulfill_items [("1", 2)] =
          .error (.validationError msg)) ∧
    ([(("1" : String), (2 : Int))] = [] →
      ∃ msg, (Order.mk (some 1) "Alice"
        [⟨"1", "Widget", ⟨3, by norm_num⟩, ⟨15, "USD", by norm_num⟩, 0⟩]
        OrderStatus.confirmed).fulfill_items [("1", 2)] =
          .error (.validationError msg)) :=
  fulfill_items_spec
    (Order.mk (some 1) "Alice"
      [⟨"1", "Widget", ⟨3, by norm_num⟩, ⟨15, "USD", by norm_num⟩, 0⟩]
      OrderStatus.confirmed)
    [("1", 2)] (by decide)
    (by
      intro pq hpq
      rw [List.mem_singleton] at hpq
      subst hpq
      exact ⟨⟨"1", "Widget", ⟨3, by norm_num⟩, ⟨15, "USD", by norm_num⟩, 0⟩,
        by decide, by decide, by decide⟩)

end OMS
